import Mathlib

/-!
Verification of the syntactic front-end of the Cobalt compiler
(thocunningham/cobalt): a shallow embedding, in Lean 4, of the
position registry (package `src`), the symbol/scope tables and the
constant-value arithmetic (package `types`), and the scanner and
recursive-descent parser (package `syntax`), together with theorems
settling the frozen specification claims C1..C10.

Modelling conventions:
* Go machine integers are modelled as `Nat`/`Int` with explicit
  wrap-around (`% 2^64` etc.) where the Go code can overflow.
* Errors raised through the bail-out mechanism (`base.Bailout` /
  `base.CatchBailout`) are modelled with `Except`: the first error
  aborts the computation, exactly as the single-shot bail-out does.
* Loops and (mutual) recursion of the scanner/parser are modelled with
  an explicit fuel parameter; `none` means the fuel ran out.  A
  function of the source terminates on an input exactly when the model
  returns `some` result for every sufficiently large fuel, and runs
  forever exactly when the model returns `none` for arbitrarily large
  (hence for all) fuel.
-/

set_option maxRecDepth 100000
set_option autoImplicit false

namespace Cobalt

/-! ## Package `src`: compact source positions (pos.go) -/

namespace Src

/-- `linebits`/`colbits` from pos.go: the packed line/column halves. -/
def linebits : Nat := 20

def colbits : Nat := 12

/-- `LineMax` from pos.go: maximum representable line number. -/
def LineMax : Nat := 1 <<< linebits - 1

/-- `ColMax` from pos.go: maximum representable column number. -/
def ColMax : Nat := 1 <<< colbits - 1

/-- `lico` from pos.go: a line/column pair packed into one word, line in
the high bits, both fields saturating at their maxima. -/
def lico (line col : Nat) : Nat :=
  (min line LineMax) <<< colbits ||| (min col ColMax)

/-- `src.Pos` from pos.go: an interned file index together with the
packed line/column word.  The Go fields are `uint32`; all values
constructed by the code fit in 32 bits, so they are modelled as `Nat`. -/
structure Pos where
  index : Nat
  lico : Nat
deriving DecidableEq

/-- `src.NoPos`: the zero, unknown position. -/
def NoPos : Pos := ⟨0, 0⟩

/-- `Pos.Known` from pos.go. -/
def Pos.Known (p : Pos) : Bool := p.index != 0

/-- `Pos.Before` from pos.go: `p.index != 0 && p.index == q.index && p.lico < q.lico`. -/
def Pos.Before (p q : Pos) : Bool :=
  p.index != 0 && p.index == q.index && decide (p.lico < q.lico)

/-- `Pos.After` from pos.go: `p.index != 0 && p.index == q.index && p.lico > q.lico`. -/
def Pos.After (p q : Pos) : Bool :=
  p.index != 0 && p.index == q.index && decide (p.lico > q.lico)

/-- `Pos.Line` from pos.go. -/
def Pos.Line (p : Pos) : Nat := p.lico >>> colbits

/-- `Pos.Col` from pos.go. -/
def Pos.Col (p : Pos) : Nat := p.lico &&& ColMax

end Src

/-! ## Package `syntax`: tokens and operators (tokens.go) -/

namespace Syn

/-- `token` from tokens.go (the leading underscores of the Go names are
dropped; the `keywordFirst`/`keywordLast` markers are not values). -/
inductive Token where
  | EOF
  | Name
  | Literal
  | Operator
  | AssignOp
  | Assign
  | Star
  | Lparen
  | Lbrack
  | Lbrace
  | Rparen
  | Rbrack
  | Rbrace
  | Comma
  | Semi
  | Colon
  | Dot
  | Cond
  | Const
  | Proc
  | Return
  | Var
deriving DecidableEq

/-- The `-linecomment` strings of the `token` stringer, used in parser
error messages ("expected <tok>"). -/
def Token.str : Token → String
  | .EOF => "EOF"
  | .Name => "name"
  | .Literal => "literal"
  | .Operator => "op"
  | .AssignOp => "op="
  | .Assign => "="
  | .Star => "*"
  | .Lparen => "("
  | .Lbrack => "["
  | .Lbrace => "\x7b"
  | .Rparen => ")"
  | .Rbrack => "]"
  | .Rbrace => "\x7d"
  | .Comma => ","
  | .Semi => ";"
  | .Colon => ":"
  | .Dot => "."
  | .Cond => "?"
  | .Const => "const"
  | .Proc => "proc"
  | .Return => "return"
  | .Var => "var"

/-- `Literal` (the literal-kind enumeration) from tokens.go.  Named
`LitKind` here so that it does not collide with the `_Literal` token. -/
inductive LitKind where
  | Int
  | Float
  | Char
  | String
deriving DecidableEq

/-- `Operator` from tokens.go.  `NoneOp` stands for the unnamed zero
value `Operator(0)`, which the scanner assigns for a plain `=` and the
parser stores in an `AssignStmt` for a plain assignment. -/
inductive Operator where
  | NoneOp
  | Not
  | LNot
  | Inc
  | Dec
  | Deref
  | OrOr
  | AndAnd
  | Eql
  | Neq
  | Lss
  | Leq
  | Gtr
  | Geq
  | Add
  | Sub
  | Or
  | Xor
  | Mul
  | Div
  | Rem
  | And
  | Shl
  | Shr
deriving DecidableEq

/-- Operator precedences from tokens.go (`precOrOr = 1` .. `precMul = 5`). -/
def precOrOr : Nat := 1

def precAndAnd : Nat := 2

def precCmp : Nat := 3

def precAdd : Nat := 4

def precMul : Nat := 5

end Syn

/-! ## Package `types`: symbols and scopes (symbol.go, scope.go) -/

namespace Types

/-- `types.Symbol` from symbol.go, restricted to the fields that
`Scope.Insert` reads or writes: the name and the back-pointer to the
declaring scope.  Go stores a `*Scope`; to avoid a cyclic structure the
back-pointer is modelled as the scope's identifier. -/
structure Symbol where
  name : String
  pos : Src.Pos
  scope : Option Nat := none
deriving DecidableEq

/-- `types.Scope` from scope.go.  The Go field `elems` is a
`map[string]*Symbol`; it is modelled as an association list in which
each name occurs at most once (`Insert` never overwrites).  The
`parent` chain is not needed by the claims and is omitted. -/
structure Scope where
  id : Nat
  elems : List (String × Symbol)
  pos : Src.Pos
  endPos : Src.Pos
deriving DecidableEq

/-- `Scope.Lookup` from scope.go: the Go map read `s.elems[name]`. -/
def Scope.Lookup (s : Scope) (name : String) : Option Symbol :=
  (s.elems.find? (fun kv => kv.1 == name)).map (fun kv => kv.2)

/-- `Scope.Insert` from scope.go: on a name collision the pre-existing
binding is returned and the map is left unchanged; otherwise the symbol
is added (setting its scope back-pointer if it was nil) and nil is
returned.  The pair returned is `(alt, updated scope)`. -/
def Scope.Insert (s : Scope) (sym : Symbol) : Option Symbol × Scope :=
  match s.Lookup sym.name with
  | some alt => (some alt, s)
  | none =>
    let stored := if sym.scope = none then { sym with scope := some s.id } else sym
    (none, { s with elems := (sym.name, stored) :: s.elems })

end Types

/-! ## Package `types`: constant values (value.go)

The Go file dispatches `Unary`/`Binary`/`Convert` dynamically on the
receiver; here `Value` is a sum and the per-variant methods are
separate functions combined by a dispatcher, mirroring the method set.

IEEE-754 `float64` arithmetic is outside this shallow embedding
(floating point is not modelled bit-exactly); the `float64` operations
that value.go uses are therefore abstracted into a `FloatOps` record
over an arbitrary carrier type `F`, and every theorem about values
holds for every such carrier.  The integer arithmetic — which is what
the claims measure — is modelled exactly, with explicit two's
complement wrap-around. -/

namespace Types

/-- The `float64` operations used by value.go, abstracted over a
carrier type `F`: IEEE comparisons (`beq`/`blt`/`ble` are `==`, `<`,
`<=`), the classification predicates from package `math`, truncation,
arithmetic, conversions to and from the integer types, and the
round-trip through `float32` (`toF32 x` is Go's
`float64(float32(x))`). -/
structure FloatOps (F : Type) where
  beq : F → F → Bool
  blt : F → F → Bool
  ble : F → F → Bool
  isInf : F → Bool
  isNaN : F → Bool
  trunc : F → F
  neg : F → F
  add : F → F → F
  sub : F → F → F
  mul : F → F → F
  div : F → F → F
  ofInt : Int → F
  ofNat : Nat → F
  toInt : F → Int
  toNat : F → Nat
  toF32 : F → F

/-- A trivial instantiation of `FloatOps` (carrier `Unit`), used to
evaluate the integer-only paths of value.go on concrete inputs. -/
def unitFloatOps : FloatOps Unit where
  beq := fun _ _ => true
  blt := fun _ _ => false
  ble := fun _ _ => true
  isInf := fun _ => false
  isNaN := fun _ => false
  trunc := id
  neg := id
  add := fun _ _ => ()
  sub := fun _ _ => ()
  mul := fun _ _ => ()
  div := fun _ _ => ()
  ofInt := fun _ => ()
  ofNat := fun _ => ()
  toInt := fun _ => 0
  toNat := fun _ => 0
  toF32 := id

/-- `floatCanInt64` from value.go. -/
def floatCanInt64 {F : Type} (fo : FloatOps F) (f : F) : Bool :=
  fo.beq f (fo.trunc f) && fo.ble (fo.ofInt (-(2 ^ 63))) f && fo.ble f (fo.ofInt (2 ^ 63 - 1))

/-- `floatCanUint64` from value.go. -/
def floatCanUint64 {F : Type} (fo : FloatOps F) (f : F) : Bool :=
  fo.beq f (fo.trunc f) && fo.ble (fo.ofNat 0) f && fo.ble f (fo.ofNat (2 ^ 64 - 1))

/-- `Kind` from type.go, in declaration (iota) order. -/
inductive Kind where
  | TUNDEF
  | TTYPE
  | TVOID
  | TBOOL
  | TINT8
  | TINT16
  | TINT32
  | TINT64
  | TINTPTR
  | TUINT8
  | TUINT16
  | TUINT32
  | TUINT64
  | TUINTPTR
  | TFLOAT32
  | TFLOAT64
  | NBASIC
  | TPOINTER
  | TOPTION
  | TARRAY
  | TPROC
  | TSTRUCT
  | NTYPES
deriving DecidableEq

/-- The numeric value of a `Kind` (its position in the Go iota block),
used for the range comparisons of the kind predicates. -/
def Kind.val : Kind → Nat
  | .TUNDEF => 0
  | .TTYPE => 1
  | .TVOID => 2
  | .TBOOL => 3
  | .TINT8 => 4
  | .TINT16 => 5
  | .TINT32 => 6
  | .TINT64 => 7
  | .TINTPTR => 8
  | .TUINT8 => 9
  | .TUINT16 => 10
  | .TUINT32 => 11
  | .TUINT64 => 12
  | .TUINTPTR => 13
  | .TFLOAT32 => 14
  | .TFLOAT64 => 15
  | .NBASIC => 16
  | .TPOINTER => 17
  | .TOPTION => 18
  | .TARRAY => 19
  | .TPROC => 20
  | .TSTRUCT => 21
  | .NTYPES => 22

/-- `Kind.IsSigned` from type.go: `k >= TINT8 && k <= TINTPTR`. -/
def Kind.IsSigned (k : Kind) : Bool :=
  Kind.TINT8.val ≤ k.val && k.val ≤ Kind.TINTPTR.val

/-- `Kind.IsUnsigned` from type.go: `k >= TUINT8 && k <= TUINTPTR`. -/
def Kind.IsUnsigned (k : Kind) : Bool :=
  Kind.TUINT8.val ≤ k.val && k.val ≤ Kind.TUINTPTR.val

/-- `Kind.IsFloat` from type.go. -/
def Kind.IsFloat (k : Kind) : Bool :=
  k = Kind.TFLOAT32 || k = Kind.TFLOAT64

/-- `kindbits` from value.go (partial in Go — it panics on other
kinds; those cases are unreachable from the call sites). -/
def kindbits : Kind → Nat
  | .TINT8 => 8
  | .TUINT8 => 8
  | .TINT16 => 16
  | .TUINT16 => 16
  | .TINT32 => 32
  | .TUINT32 => 32
  | .TFLOAT32 => 32
  | .TINT64 => 64
  | .TUINT64 => 64
  | .TFLOAT64 => 64
  | _ => 0

/-- `types.Value` from value.go: the sum of the dynamic value variants
`undefValue`, `typeValue`, `boolValue`, `intValue`, `uintValue` and
`floatValue`.  The `*Type` payload of `typeValue` plays no role in the
operations modelled here and is omitted.  `int` carries a Go `int64`
(an `Int` in `[-2^63, 2^63)`), `uint` a Go `uint64` (a `Nat` below
`2^64`). -/
inductive Value (F : Type) where
  | undef
  | typeV
  | bool (b : Bool)
  | int (x : Int) (bits : Nat)
  | uint (x : Nat) (bits : Nat)
  | float (x : F) (bits : Nat)
deriving DecidableEq

/-- Two's complement wrap-around of an `Int` into the `int64` range,
modelling Go's defined signed overflow. -/
def wrap64 (x : Int) : Int := (x + 2 ^ 63) % 2 ^ 64 - 2 ^ 63

/-- Go's `uint64(x)` for an `int64` operand `x` (bit reinterpretation). -/
def i2u (x : Int) : Nat := (x % 2 ^ 64).toNat

/-- `MakeInt` from value.go: 32 bits unless `x < -1<<31 || x > 1<<31-1`. -/
def MakeInt {F : Type} (x : Int) : Value F :=
  if x < -(2 ^ 31) ∨ x > 2 ^ 31 - 1 then .int x 64 else .int x 32

/-- `MakeUint` from value.go: 32 bits unless `x > 1<<32-1`. -/
def MakeUint {F : Type} (x : Nat) : Value F :=
  if x > 2 ^ 32 - 1 then .uint x 64 else .uint x 32

/-- `MakeFloat` from value.go: 32 bits iff `float64(float32(x)) == x`. -/
def MakeFloat {F : Type} (fo : FloatOps F) (x : F) : Value F :=
  if fo.beq (fo.toF32 x) x then .float x 32 else .float x 64

/-- `MakeBool` from value.go. -/
def MakeBool {F : Type} (b : Bool) : Value F := .bool b

/-- `boolValue.Unary` from value.go: only `LNot` is supported; every
other operator yields `Undefined`. -/
def boolValueUnary {F : Type} (b : Bool) (op : Syn.Operator) : Value F :=
  if op = .LNot then MakeBool (!b) else (.undef)

/-- `intValue.Unary` from value.go.  The `switch` has no default
branch: an operator that matches no case leaves `v.x` unchanged and the
function still returns `MakeInt(v.x)` (it does not return `Undefined`).
The receiver's `bits` field is not consulted — the result width is
recomputed by `MakeInt`. -/
def intValueUnary {F : Type} (x : Int) (_bits : Nat) (op : Syn.Operator) : Value F :=
  let x :=
    match op with
    | .Not => wrap64 (-x - 1)
    | .Inc => wrap64 (x + 1)
    | .Dec => wrap64 (x - 1)
    | .Add => x
    | .Sub => wrap64 (-x)
    | _ => x
  MakeInt x

/-- `uintValue.Unary` from value.go; like `intValue.Unary` it has no
default branch and always returns `MakeUint(v.x)`. -/
def uintValueUnary {F : Type} (x : Nat) (_bits : Nat) (op : Syn.Operator) : Value F :=
  let x :=
    match op with
    | .Not => 2 ^ 64 - 1 - x
    | .Inc => (x + 1) % 2 ^ 64
    | .Dec => (x + (2 ^ 64 - 1)) % 2 ^ 64
    | .Add => x
    | .Sub => (2 ^ 64 - x) % 2 ^ 64
    | _ => x
  MakeUint x

/-- `floatValue.Unary` from value.go; no default branch, always
returns `MakeFloat(v.x)`. -/
def floatValueUnary {F : Type} (fo : FloatOps F) (x : F) (_bits : Nat) (op : Syn.Operator) : Value F :=
  let x :=
    match op with
    | .Inc => fo.add x (fo.ofNat 1)
    | .Dec => fo.sub x (fo.ofNat 1)
    | .Add => x
    | .Sub => fo.neg x
    | _ => x
  MakeFloat fo x

/-- The `Unary` method of the `Value` interface, dispatching on the
dynamic variant exactly as Go method dispatch does
(`undefValue.Unary` and `typeValue.Unary` are constant `Undefined`). -/
def Value.Unary {F : Type} (fo : FloatOps F) : Value F → Syn.Operator → Value F
  | .undef, _ => .undef
  | .typeV, _ => .undef
  | .bool b, op => boolValueUnary b op
  | .int x bits, op => intValueUnary x bits op
  | .uint x bits, op => uintValueUnary x bits op
  | .float x bits, op => floatValueUnary fo x bits op

/-- `uintValue.Binary` from value.go, translated case by case.  The
receiver is `v = uintValue{x, bits}`; `w` is the second operand.  Note
the `Neq`/`uintValue` arm: the source (part_006 line 497) returns
`MakeBool(v.x == w.x)` — the comparison is not negated — and this model
reproduces that faithfully.  Arithmetic on the `uint64` field wraps
modulo `2^64`; `uint64(w.x)` of a signed operand is `i2u`. -/
def uintValueBinary {F : Type} (fo : FloatOps F) (x : Nat) (_bits : Nat) (op : Syn.Operator) :
    Value F → Value F
  | .int wx _ =>
    match op with
    | .Eql => MakeBool (decide (0 ≤ wx) && decide (x = i2u wx))
    | .Neq => MakeBool (decide (wx < 0) || decide (x ≠ i2u wx))
    | .Lss => MakeBool (decide (0 ≤ wx) && decide (x < i2u wx))
    | .Leq => MakeBool (decide (0 ≤ wx) && decide (x ≤ i2u wx))
    | .Gtr => MakeBool (decide (wx < 0) || decide (x > i2u wx))
    | .Geq => MakeBool (decide (wx < 0) || decide (x ≥ i2u wx))
    | .Add => MakeUint ((x + i2u wx) % 2 ^ 64)
    | .Sub => MakeUint ((x + (2 ^ 64 - i2u wx)) % 2 ^ 64)
    | .Or => MakeUint (x ||| i2u wx)
    | .Xor => MakeUint (x ^^^ i2u wx)
    | .Mul => MakeUint ((x * i2u wx) % 2 ^ 64)
    | .Div => if wx = 0 then .undef else MakeUint (x / i2u wx)
    | .Rem => if wx = 0 then .undef else MakeUint (x % i2u wx)
    | .And => MakeUint (x &&& i2u wx)
    | .Shl => if wx < 0 then .undef else MakeUint ((x <<< wx.toNat) % 2 ^ 64)
    | .Shr => if wx < 0 then .undef else MakeUint (x >>> wx.toNat)
    | _ => .undef
  | .uint wx _ =>
    match op with
    | .Eql => MakeBool (decide (x = wx))
    | .Neq => MakeBool (decide (x = wx))
    | .Lss => MakeBool (decide (x < wx))
    | .Leq => MakeBool (decide (x ≤ wx))
    | .Gtr => MakeBool (decide (x > wx))
    | .Geq => MakeBool (decide (x ≥ wx))
    | .Add => MakeUint ((x + wx) % 2 ^ 64)
    | .Sub => MakeUint ((x + (2 ^ 64 - wx)) % 2 ^ 64)
    | .Or => MakeUint (x ||| wx)
    | .Xor => MakeUint (x ^^^ wx)
    | .Mul => MakeUint ((x * wx) % 2 ^ 64)
    | .Div => if wx = 0 then .undef else MakeUint (x / wx)
    | .Rem => if wx = 0 then .undef else MakeUint (x % wx)
    | .And => MakeUint (x &&& wx)
    | .Shl => MakeUint ((x <<< wx) % 2 ^ 64)
    | .Shr => MakeUint (x >>> wx)
    | _ => .undef
  | .float wx _ =>
    match op with
    | .Eql =>
      if fo.isInf wx || fo.isNaN wx then MakeBool false
      else if floatCanUint64 fo wx then MakeBool (decide (x = fo.toNat wx))
      else MakeBool (fo.beq (fo.ofNat x) wx)
    | .Neq =>
      if fo.isInf wx || fo.isNaN wx then MakeBool false
      else if floatCanUint64 fo wx then MakeBool (decide (x ≠ fo.toNat wx))
      else MakeBool (!fo.beq (fo.ofNat x) wx)
    | .Lss =>
      if fo.isInf wx || fo.isNaN wx then MakeBool false
      else if floatCanUint64 fo wx then MakeBool (decide (x < fo.toNat wx))
      else MakeBool (fo.blt (fo.ofNat x) wx)
    | .Leq =>
      if fo.isInf wx || fo.isNaN wx then MakeBool false
      else if floatCanUint64 fo wx then MakeBool (decide (x ≤ fo.toNat wx))
      else MakeBool (fo.ble (fo.ofNat x) wx)
    | .Gtr =>
      if fo.isInf wx || fo.isNaN wx then MakeBool false
      else if floatCanUint64 fo wx then MakeBool (decide (x > fo.toNat wx))
      else MakeBool (fo.blt wx (fo.ofNat x))
    | .Geq =>
      if fo.isInf wx || fo.isNaN wx then MakeBool false
      else if floatCanUint64 fo wx then MakeBool (decide (x ≥ fo.toNat wx))
      else MakeBool (fo.ble wx (fo.ofNat x))
    | .Add => MakeFloat fo (fo.add (fo.ofNat x) wx)
    | .Sub => MakeFloat fo (fo.sub (fo.ofNat x) wx)
    | .Mul => MakeFloat fo (fo.mul (fo.ofNat x) wx)
    | .Div => if fo.beq wx (fo.ofNat 0) then .undef else MakeFloat fo (fo.div (fo.ofNat x) wx)
    | _ => .undef
  | _ => .undef

end Types

/-! ## Package `syntax`: the buffered source reader (source.go)

The Go `source` reads bytes from an `io.Reader` into a growable buffer
with indices `b ≤ r ≤ e` and a sentinel byte.  The buffering and
refilling (`fill`) are I/O machinery; the embedding reads from the
rune sequence of the input directly: `rest` is the unread part of the
input, `ch`/`chw` are the most recently read rune and its UTF-8 byte
width (`ch = -1`, `chw = 0` at EOF), and the active segment
`b..r-chw` is modelled by the accumulator `seg` (`none` when `b = -1`,
i.e. after `stop()`).  Invalid UTF-8 cannot be expressed over a rune
sequence; none of the claims' inputs contain it.  Errors are reported
through the bail-out mechanism, i.e. `Except.error` here, carrying the
1-based `(line, col)` of `pos()` together with the message (`at` /
`errorAt` build a `src.Pos` from exactly these coordinates). -/

namespace Syn

/-- A scan or parse error: the Go `syntax.Error` with the position kept
as the 1-based line/column pair handed to `src.MakePos`. -/
structure ScanErr where
  line : Nat
  col : Nat
  msg : String
deriving DecidableEq

/-- The rune value of a character, for comparisons against `s.ch`. -/
def chr (c : Char) : Int := c.toNat

/-- The reader state (`source` from source.go, minus the buffer
machinery; see the section comment). -/
structure Source where
  rest : List Char
  line : Nat
  col : Nat
  ch : Int
  chw : Nat
  seg : Option (List Char)
deriving DecidableEq

/-- `source.init`: position (0,0), `ch = ' '`, `chw = 0`, no segment. -/
def Source.init (input : List Char) : Source :=
  ⟨input, 0, 0, chr ' ', 0, none⟩

/-- `nextch` from source.go, as a recursion over the unread input; the
first parameters are the current reader fields.  Each call first
advances `(line, col)` over the previous rune (a byte-width step, a
newline resetting the column), appends the previous rune to the active
segment, and then reads one rune: NUL is an error, a byte-order mark is
skipped silently at the very start of the file and is an error anywhere
else (the `goto redo`), and at the end of input `ch` becomes -1. -/
def nextchAux (line col : Nat) (ch : Int) (chw : Nat) (seg : Option (List Char)) :
    List Char → Except ScanErr Source
  | [] =>
    let col' := col + chw
    let p := if ch = chr '\n' then (line + 1, 0) else (line, col')
    let seg' := seg.map fun l => if chw > 0 then l ++ [Char.ofNat ch.toNat] else l
    .ok ⟨[], p.1, p.2, -1, 0, seg'⟩
  | c :: rest =>
    let col' := col + chw
    let p := if ch = chr '\n' then (line + 1, 0) else (line, col')
    let seg' := seg.map fun l => if chw > 0 then l ++ [Char.ofNat ch.toNat] else l
    if c = '\x00' then
      .error ⟨p.1 + 1, p.2 + 1, "invalid NUL character"⟩
    else if c = '﻿' then
      if p.1 > 0 ∨ p.2 > 0 then
        .error ⟨p.1 + 1, p.2 + 1, "invalid BOM in the middle of the file"⟩
      else
        nextchAux p.1 p.2 (chr '﻿') '﻿'.utf8Size seg' rest
    else
      .ok ⟨rest, p.1, p.2, c.toNat, c.utf8Size, seg'⟩

/-- `source.nextch` on a `Source` value. -/
def Source.nextch (s : Source) : Except ScanErr Source :=
  nextchAux s.line s.col s.ch s.chw s.seg s.rest

/-! ## Package `syntax`: the scanner (scanner.go) -/

/-- The scanner state: the embedded `source` plus the token fields of
the `scanner` struct (valid after `next()`; `lit` may be stale for
tokens that are not names or literals, exactly as in the source). -/
structure SState where
  src : Source
  line : Nat := 0
  col : Nat := 0
  lit : String := ""
  tok : Token := .EOF
  kind : LitKind := .Int
  op : Operator := .NoneOp
  prec : Nat := 0
deriving DecidableEq

/-- The scanner over a fresh reader for the given input. -/
def SState.init (input : String) : SState :=
  { src := Source.init input.toList }

/-- The current rune. -/
def SState.ch (s : SState) : Int := s.src.ch

/-- `nextch` lifted to the scanner state. -/
def SState.nextch (s : SState) : Except ScanErr SState :=
  s.src.nextch.map fun src => { s with src }

/-- `start()` from source.go: opens a segment at the current rune. -/
def SState.start (s : SState) : SState :=
  { s with src := { s.src with seg := some [] } }

/-- `stop()` from source.go. -/
def SState.stop (s : SState) : SState :=
  { s with src := { s.src with seg := none } }

/-- `segment()` from source.go: the runes consumed since `start()`,
excluding the current rune. -/
def SState.segment (s : SState) : List Char := s.src.seg.getD []

/-- An error at the current character position (`source.error`, used by
`errorf`): 1-based `pos()` coordinates. -/
def SState.errS (s : SState) (msg : String) : ScanErr :=
  ⟨s.src.line + 1, s.src.col + 1, msg⟩

/-- `errorAtf`: an error at a byte-column offset from the start of the
current token (the scanner's stored 1-based `line`/`col`). -/
def SState.errAt (s : SState) (offset : Nat) (msg : String) : ScanErr :=
  ⟨s.line, s.col + offset, msg⟩

/-- `setLit` from scanner.go. -/
def SState.setLit (s : SState) (kind : LitKind) : SState :=
  { s with tok := .Literal, lit := String.mk s.segment, kind }

/-- `lower` from scanner.go: `('a'-'A') | ch`. -/
def lowerI (ch : Int) : Int :=
  if ch < 0 then ch else ((ch.toNat ||| 32 : Nat) : Int)

/-- `isLetter` from scanner.go: ASCII letter or underscore. -/
def isLetter (ch : Int) : Bool :=
  (chr 'a' ≤ lowerI ch ∧ lowerI ch ≤ chr 'z') ∨ ch = chr '_'

/-- `isDecimal` from scanner.go. -/
def isDecimal (ch : Int) : Bool := chr '0' ≤ ch ∧ ch ≤ chr '9'

/-- `isHex` from scanner.go. -/
def isHex (ch : Int) : Bool :=
  (chr '0' ≤ ch ∧ ch ≤ chr '9') ∨ (chr 'a' ≤ lowerI ch ∧ lowerI ch ≤ chr 'f')

/-- `unicode.IsLetter`, restricted to the ASCII range: non-ASCII
letter classification is outside this embedding (every input used by
the claims is ASCII), so runes ≥ 0x80 are classified as non-letters. -/
def unicodeIsLetter (ch : Int) : Bool :=
  (65 ≤ ch ∧ ch ≤ 90) ∨ (97 ≤ ch ∧ ch ≤ 122)

/-- `unicode.IsDigit`, restricted likewise to ASCII. -/
def unicodeIsDigit (ch : Int) : Bool := isDecimal ch

/-- `atIdentChar` from scanner.go: whether the current rune continues
an identifier; a non-ident rune beyond ASCII is a scan error. -/
def atIdentChar (s : SState) : Except ScanErr Bool :=
  if unicodeIsLetter s.ch ∨ unicodeIsDigit s.ch ∨ s.ch = chr '_' then .ok true
  else if s.ch ≥ 128 then .error (s.errS "invalid character in identifier")
  else .ok false

/-- The keyword table from scanner.go (`keywordMap`, built by `init()`
from the token stringer). -/
def keywordLookup : String → Option Token
  | "const" => some .Const
  | "proc" => some .Proc
  | "return" => some .Return
  | "var" => some .Var
  | _ => none

/-- `baseName` from scanner.go. -/
def baseName : Nat → String
  | 2 => "binary"
  | 8 => "octal"
  | 10 => "decimal"
  | 16 => "hexadecimal"
  | _ => "unreachable"

/-- The inner loop of `invalidSep` from scanner.go: `x1` is the
(lowered) prefix character when it is `x`/`o`/`b`, `d` the
classification of the previous character (`'_'`, `'0'` for a digit,
`'.'` otherwise), `i` the index of the head of `cs` in the literal,
`len` the literal's length. -/
def invalidSepLoop (x1 : Char) (len : Nat) : Char → Nat → List Char → Int
  | d, _, [] => if d = '_' then (len : Int) - 1 else -1
  | d, i, c :: cs =>
    let p := d
    if c = '_' then
      if p ≠ '0' then (i : Int) else invalidSepLoop x1 len '_' (i + 1) cs
    else if ('0' ≤ c ∧ c ≤ '9') ∨ (x1 = 'x' ∧ isHex (chr c)) then
      invalidSepLoop x1 len '0' (i + 1) cs
    else
      if p = '_' then (i : Int) - 1 else invalidSepLoop x1 len '.' (i + 1) cs

/-- `invalidSep` from scanner.go: the index of the first badly placed
underscore in a literal, or -1.  A base prefix (`0x`/`0o`/`0b`) counts
as a digit. -/
def invalidSep (x : String) : Int :=
  match x.toList with
  | c0 :: c1 :: rest =>
    if c0 = '0' ∧ (Char.ofNat (lowerI (chr c1)).toNat = 'x' ∨
        Char.ofNat (lowerI (chr c1)).toNat = 'o' ∨ Char.ofNat (lowerI (chr c1)).toNat = 'b') then
      invalidSepLoop (Char.ofNat (lowerI (chr c1)).toNat) x.length '0' 2 rest
    else
      invalidSepLoop (if c0 = '0' then Char.ofNat (lowerI (chr c1)).toNat else ' ')
        x.length '.' 0 (c0 :: c1 :: rest)
  | cs => invalidSepLoop ' ' x.length '.' 0 cs

/-- The result type of the fueled scanner functions: `none` when the
fuel ran out, otherwise the bailed-out error or the next state. -/
abbrev SRes := Option (Except ScanErr SState)

/-- Sequence an `Except` step (such as `nextch`) before a fueled one. -/
def ebind {α β : Type} (x : Except ScanErr α) (f : α → Option (Except ScanErr β)) :
    Option (Except ScanErr β) :=
  match x with
  | .error e => some (.error e)
  | .ok a => f a

/-- Sequence two fueled steps. -/
def obind {α β : Type} (x : Option (Except ScanErr α)) (f : α → Option (Except ScanErr β)) :
    Option (Except ScanErr β) :=
  match x with
  | none => none
  | some (.error e) => some (.error e)
  | some (.ok a) => f a

/-- The `assignop` label of `next()` from scanner.go. -/
def assignopS (s : SState) : Except ScanErr SState :=
  if s.ch = chr '=' then
    s.nextch.map fun s => { s with tok := .AssignOp }
  else .ok { s with tok := .Operator }

/-- A single-rune delimiter token: `s.nextch(); s.tok = t`. -/
def simpleTokS (s : SState) (t : Token) : Except ScanErr SState :=
  s.nextch.map fun s => { s with tok := t }

/-- The whitespace-skipping loop at the top of `next()`. -/
def skipWsF : Nat → SState → SRes
  | 0, _ => none
  | fuel + 1, s =>
    if s.ch = chr ' ' ∨ s.ch = chr '\t' ∨ s.ch = chr '\n' ∨ s.ch = chr '\r' then
      ebind s.nextch fun s => skipWsF fuel s
    else some (.ok s)

/-- The ASCII fast-path loop of `name()`. -/
def nameLoopAsciiF : Nat → SState → SRes
  | 0, _ => none
  | fuel + 1, s =>
    if isLetter s.ch ∨ isDecimal s.ch then
      ebind s.nextch fun s => nameLoopAsciiF fuel s
    else some (.ok s)

/-- The general identifier loop of `name()` (`for s.atIdentChar()`). -/
def nameLoopIdentF : Nat → SState → SRes
  | 0, _ => none
  | fuel + 1, s =>
    match atIdentChar s with
    | .error e => some (.error e)
    | .ok true => ebind s.nextch fun s => nameLoopIdentF fuel s
    | .ok false => some (.ok s)

/-- `name()` from scanner.go, entered after the first rune of the
identifier has been consumed. -/
def nameF : Nat → SState → SRes
  | 0, _ => none
  | fuel + 1, s =>
    obind (nameLoopAsciiF fuel s) fun s =>
    obind (if s.ch ≥ 128 then nameLoopIdentF fuel s else some (.ok s)) fun s =>
    let lit := s.segment
    match if lit.length ≥ 2 then keywordLookup (String.mk lit) else none with
    | some tok => some (.ok { s with tok })
    | none =>
      if lit.length > 100 then
        some (.error ⟨s.line, s.col, "excessively long name"⟩)
      else
        some (.ok { s with lit := String.mk lit, tok := .Name })

/-- `digits(base, invalid)` from scanner.go.  Returns the `digsep`
bits (bit 0: digit seen, bit 1: `'_'` seen) together with the updated
invalid-digit index; `track` models whether the Go `invalid` pointer
is non-nil (it is nil for the exponent call). -/
def digitsF : Nat → Nat → Bool → Int → SState → Option (Except ScanErr (Nat × Int × SState))
  | 0, _, _, _, _ => none
  | fuel + 1, base, track, invalid, s =>
    if base ≤ 10 then
      if isDecimal s.ch ∨ s.ch = chr '_' then
        let ds : Nat := if s.ch = chr '_' then 2 else 1
        let invalid :=
          if s.ch ≠ chr '_' ∧ s.ch ≥ chr '0' + (base : Int) ∧ track ∧ invalid < 0 then
            ((s.src.col + 1 : Int) - (s.col : Int))
          else invalid
        ebind s.nextch fun s =>
          obind (digitsF fuel base track invalid s) fun r =>
            some (.ok (r.1 ||| ds, r.2.1, r.2.2))
      else some (.ok (0, invalid, s))
    else
      if isHex s.ch ∨ s.ch = chr '_' then
        let ds : Nat := if s.ch = chr '_' then 2 else 1
        ebind s.nextch fun s =>
          obind (digitsF fuel base track invalid s) fun r =>
            some (.ok (r.1 ||| ds, r.2.1, r.2.2))
      else some (.ok (0, invalid, s))

/-- The tail of `number()` after all digits: `setLit`, then the
invalid-digit, underscore-placement and length checks, in source
order. -/
def numberFinish (kind : LitKind) (base : Nat) (digsep : Nat) (invalid : Int)
    (s : SState) : Except ScanErr SState :=
  let s := s.setLit kind
  if kind = .Int ∧ invalid ≥ 0 then
    .error (s.errAt invalid.toNat
      ("invalid digit '" ++ String.mk [s.lit.toList.getD invalid.toNat ' '] ++ "' in " ++
        baseName base ++ " literal"))
  else if digsep &&& 2 ≠ 0 ∧ invalidSep s.lit ≥ 0 then
    .error (s.errAt (invalidSep s.lit).toNat "'_' must separate successive digits")
  else if s.lit.length > 200 then
    .error ⟨s.line, s.col, "excessively long number"⟩
  else .ok s

/-- The exponent part of `number()` (`lower(s.ch) == 'e'`) followed by
`numberFinish`. -/
def numberExpF : Nat → LitKind → Nat → Option Char → Nat → Int → SState → SRes
  | 0, _, _, _, _, _, _ => none
  | fuel + 1, kind, base, pfx, digsep, invalid, s =>
    if lowerI s.ch = chr 'e' then
      if pfx ≠ none then
        some (.error (s.errS "'e' exponent requires decimal mantissa"))
      else
        ebind s.nextch fun s =>
        obind (if s.ch = chr '+' ∨ s.ch = chr '-' then
                 ebind s.nextch fun s => some (.ok s)
               else some (.ok s)) fun s =>
        obind (digitsF fuel 10 false 0 s) fun r =>
          let ds := r.1
          let s := r.2.2
          if ds &&& 1 = 0 then some (.error (s.errS "exponent has no digits"))
          else some (numberFinish .Float base (ds ||| (digsep &&& 2)) invalid s)
    else some (numberFinish kind base digsep invalid s)

/-- The fractional part of `number()` (entered with `seenPoint`):
`kind` becomes `Float`, more digits are read, then the no-digits check
and the exponent. -/
def numberFracF : Nat → Nat → Option Char → Nat → Int → SState → SRes
  | 0, _, _, _, _, _ => none
  | fuel + 1, base, pfx, digsep, invalid, s =>
    obind (digitsF fuel base true invalid s) fun r =>
      let digsep := digsep ||| r.1
      let invalid := r.2.1
      let s := r.2.2
      if digsep &&& 1 = 0 then
        some (.error (s.errS (baseName base ++ " literal has no digits")))
      else numberExpF fuel .Float base pfx digsep invalid s

/-- The integer (mantissa) part of `number()` after the base prefix:
digits, an optional decimal point promoting to `Float`, the no-digits
check, then the exponent. -/
def numberMantF : Nat → Nat → Option Char → Nat → SState → SRes
  | 0, _, _, _, _ => none
  | fuel + 1, base, pfx, digsep0, s =>
    obind (digitsF fuel base true (-1) s) fun r =>
      let digsep := digsep0 ||| r.1
      let invalid := r.2.1
      let s := r.2.2
      if s.ch = chr '.' then
        if pfx ≠ none then
          some (.error (s.errS "can only add decimal point to base-10 literals"))
        else
          ebind s.nextch fun s => numberFracF fuel base pfx digsep invalid s
      else
        if digsep &&& 1 = 0 then
          some (.error (s.errS (baseName base ++ " literal has no digits")))
        else numberExpF fuel .Int base pfx digsep invalid s

/-- `number(seenPoint)` from scanner.go: base-prefix dispatch on a
leading `0`, then the mantissa; with `seenPoint` the integer part is
skipped. -/
def numberF : Nat → Bool → SState → SRes
  | 0, _, _ => none
  | fuel + 1, seenPoint, s =>
    if seenPoint then numberFracF fuel 10 none 0 (-1) s
    else if s.ch = chr '0' then
      ebind s.nextch fun s =>
        if lowerI s.ch = chr 'x' then
          ebind s.nextch fun s => numberMantF fuel 16 (some 'x') 0 s
        else if lowerI s.ch = chr 'o' then
          ebind s.nextch fun s => numberMantF fuel 8 (some 'o') 0 s
        else if lowerI s.ch = chr 'b' then
          ebind s.nextch fun s => numberMantF fuel 2 (some 'b') 0 s
        else numberMantF fuel 8 (some '0') 1 s
    else numberMantF fuel 10 none 0 s

/-- The digit-accumulation loop of `escape()`: reads up to `count`
digits in the given base; at EOF it returns silently (`none` marks the
early return, which skips the range checks). -/
def escapeDigitsF : Nat → Nat → Nat → SState → Except ScanErr (Option Nat × SState)
  | 0, _, x, s => .ok (some x, s)
  | count + 1, base, x, s =>
    if s.ch < 0 then .ok (none, s)
    else
      let d : Nat :=
        if isDecimal s.ch then (s.ch - chr '0').toNat
        else if chr 'a' ≤ lowerI s.ch ∧ lowerI s.ch ≤ chr 'f' then (lowerI s.ch - chr 'a').toNat + 10
        else base
      if d ≥ base then
        .error (s.errS ("invalid character in " ++ baseName base ++ " escape"))
      else
        match s.nextch with
        | .error e => .error e
        | .ok s => escapeDigitsF count base (x * base + d) s

/-- The value checks after the digit loop of `escape()`. -/
def escapeChecks (base maxv : Nat) (r : Option Nat × SState) : Except ScanErr SState :=
  match r with
  | (none, s) => .ok s
  | (some x, s) =>
    if x > maxv ∧ base = 8 then
      .error (s.errS ("octal escape value " ++ toString x ++ " > 255"))
    else if x > maxv ∨ (0xD800 ≤ x ∧ x < 0xE000) then
      .error (s.errS "escape is invalid Unicode code point")
    else .ok s

/-- `escape(quote)` from scanner.go. -/
def escapeS (quote : Int) (s : SState) : Except ScanErr SState :=
  if s.ch = quote ∨ s.ch = chr 'a' ∨ s.ch = chr 'b' ∨ s.ch = chr 'f' ∨ s.ch = chr 'n' ∨
      s.ch = chr 'r' ∨ s.ch = chr 't' ∨ s.ch = chr 'v' ∨ s.ch = chr '\\' then
    s.nextch
  else if chr '0' ≤ s.ch ∧ s.ch ≤ chr '7' then
    (escapeDigitsF 3 8 0 s).bind (escapeChecks 8 255)
  else if s.ch = chr 'x' then
    s.nextch.bind fun s => (escapeDigitsF 2 16 0 s).bind (escapeChecks 16 255)
  else if s.ch = chr 'u' then
    s.nextch.bind fun s => (escapeDigitsF 4 16 0 s).bind (escapeChecks 16 0x10FFFF)
  else if s.ch = chr 'U' then
    s.nextch.bind fun s => (escapeDigitsF 8 16 0 s).bind (escapeChecks 16 0x10FFFF)
  else if s.ch < 0 then .ok s
  else .error (s.errS "unknown escape")

/-- The character loop of `char()` from scanner.go; `n` counts the
logical characters seen. -/
def charLoopF : Nat → Nat → SState → SRes
  | 0, _, _ => none
  | fuel + 1, n, s =>
    if s.ch = chr '\'' then
      if n = 0 then some (.error (s.errS "empty character literal or unescaped '"))
      else if n ≠ 1 then some (.error (s.errAt 0 "more than one character in character literal"))
      else ebind s.nextch fun s => some (.ok (s.setLit .Char))
    else if s.ch = chr '\\' then
      ebind s.nextch fun s =>
        ebind (escapeS (chr '\'') s) fun s => charLoopF fuel (n + 1) s
    else if s.ch = chr '\n' then some (.error (s.errS "newline in character literal"))
    else if s.ch < 0 then some (.error (s.errAt 0 "character literal not terminated"))
    else ebind s.nextch fun s => charLoopF fuel (n + 1) s

/-- `char()` from scanner.go. -/
def charF : Nat → SState → SRes
  | 0, _ => none
  | fuel + 1, s => ebind s.nextch fun s => charLoopF fuel 0 s

/-- The `//` body of `comment()`: skip to end of line or EOF. -/
def lineCommentLoopF : Nat → SState → SRes
  | 0, _ => none
  | fuel + 1, s =>
    if s.ch ≥ 0 ∧ s.ch ≠ chr '\n' then
      ebind s.nextch fun s => lineCommentLoopF fuel s
    else some (.ok s)

/-- The nesting loop of the `/* */` body of `comment()`, with the
nesting level `lev`; when the loop ends with `lev > 0` the comment was
not terminated before EOF. -/
def blockCommentLoopF : Nat → Nat → SState → SRes
  | 0, _, _ => none
  | fuel + 1, lev, s =>
    if s.ch ≥ 0 ∧ lev > 0 then
      if s.ch = chr '/' then
        ebind s.nextch fun s =>
          if s.ch = chr '*' then
            ebind s.nextch fun s => blockCommentLoopF fuel (lev + 1) s
          else blockCommentLoopF fuel lev s
      else if s.ch = chr '*' then
        ebind s.nextch fun s =>
          if s.ch = chr '/' then
            ebind s.nextch fun s => blockCommentLoopF fuel (lev - 1) s
          else blockCommentLoopF fuel lev s
      else ebind s.nextch fun s => blockCommentLoopF fuel lev s
    else
      if lev > 0 then some (.error (s.errAt 0 "comment not terminated"))
      else some (.ok s)

/-- `next()` from scanner.go.  `comment()` is inlined at its single
call site (the `'/'` case) so that the `next()`-`comment()` mutual
recursion stays a self-recursion on the fuel: `comment()` saves
`ch := s.ch`, then (as written in the source) calls the token-level
`s.next()`, then either skips to the end of the line (`ch == '/'`) or
runs one `s.nextch()` followed by the nesting loop; afterwards `next()`
restarts at its top (`goto redo`). -/
def scanNext : Nat → SState → SRes
  | 0, _ => none
  | fuel + 1, s =>
    let s := s.stop
    obind (skipWsF fuel s) fun s =>
    let s := { s with line := s.src.line + 1, col := s.src.col + 1 }
    let s := s.start
    if isLetter s.ch ∨ (s.ch ≥ 128 ∧ unicodeIsLetter s.ch) then
      ebind s.nextch fun s => nameF fuel s
    else if s.ch = -1 then some (.ok { s with tok := .EOF })
    else if isDecimal s.ch then numberF fuel false s
    else if s.ch = chr '\'' then charF fuel s
    else if s.ch = chr '(' then some (simpleTokS s .Lparen)
    else if s.ch = chr '[' then some (simpleTokS s .Lbrack)
    else if s.ch = chr '{' then some (simpleTokS s .Lbrace)
    else if s.ch = chr ',' then some (simpleTokS s .Comma)
    else if s.ch = chr ';' then some (simpleTokS s .Semi)
    else if s.ch = chr ')' then some (simpleTokS s .Rparen)
    else if s.ch = chr ']' then some (simpleTokS s .Rbrack)
    else if s.ch = chr '}' then some (simpleTokS s .Rbrace)
    else if s.ch = chr ':' then some (simpleTokS s .Colon)
    else if s.ch = chr '.' then
      ebind s.nextch fun s =>
        if isDecimal s.ch then numberF fuel true s
        else some (.ok { s with tok := .Dot })
    else if s.ch = chr '+' then
      ebind s.nextch fun s =>
        let s := { s with op := .Add, prec := precAdd }
        if s.ch ≠ chr '+' then some (assignopS s)
        else ebind s.nextch fun s => some (.ok { s with tok := .Operator, op := .Inc })
    else if s.ch = chr '-' then
      ebind s.nextch fun s =>
        let s := { s with op := .Sub, prec := precAdd }
        if s.ch ≠ chr '-' then some (assignopS s)
        else ebind s.nextch fun s => some (.ok { s with tok := .Operator, op := .Dec })
    else if s.ch = chr '*' then
      ebind s.nextch fun s =>
        let s := { s with op := .Mul, prec := precMul }
        if s.ch = chr '=' then
          ebind s.nextch fun s => some (.ok { s with tok := .AssignOp })
        else some (.ok { s with tok := .Star })
    else if s.ch = chr '/' then
      ebind s.nextch fun s =>
        if s.ch = chr '/' ∨ s.ch = chr '*' then
          let ch := s.ch
          obind (scanNext fuel s) fun s =>
          obind (if ch = chr '/' then lineCommentLoopF fuel s
                 else ebind s.nextch fun s => blockCommentLoopF fuel 1 s) fun s =>
            scanNext fuel s
        else some (assignopS { s with op := .Div, prec := precMul })
    else if s.ch = chr '%' then
      ebind s.nextch fun s => some (assignopS { s with op := .Rem, prec := precMul })
    else if s.ch = chr '&' then
      ebind s.nextch fun s =>
        if s.ch = chr '&' then
          ebind s.nextch fun s =>
            some (.ok { s with op := .AndAnd, prec := precAndAnd, tok := .Operator })
        else some (assignopS { s with op := .And, prec := precMul })
    else if s.ch = chr '|' then
      ebind s.nextch fun s =>
        if s.ch = chr '|' then
          ebind s.nextch fun s =>
            some (.ok { s with op := .OrOr, prec := precOrOr, tok := .Operator })
        else some (assignopS { s with op := .Or, prec := precAdd })
    else if s.ch = chr '^' then
      ebind s.nextch fun s => some (assignopS { s with op := .Xor, prec := precAdd })
    else if s.ch = chr '<' then
      ebind s.nextch fun s =>
        if s.ch = chr '=' then
          ebind s.nextch fun s =>
            some (.ok { s with op := .Leq, prec := precCmp, tok := .Operator })
        else if s.ch = chr '<' then
          ebind s.nextch fun s => some (assignopS { s with op := .Shl, prec := precMul })
        else some (.ok { s with op := .Lss, prec := precCmp, tok := .Operator })
    else if s.ch = chr '>' then
      ebind s.nextch fun s =>
        if s.ch = chr '=' then
          ebind s.nextch fun s =>
            some (.ok { s with op := .Geq, prec := precCmp, tok := .Operator })
        else if s.ch = chr '>' then
          ebind s.nextch fun s => some (assignopS { s with op := .Shr, prec := precMul })
        else some (.ok { s with op := .Gtr, prec := precCmp, tok := .Operator })
    else if s.ch = chr '=' then
      ebind s.nextch fun s =>
        if s.ch = chr '=' then
          ebind s.nextch fun s =>
            some (.ok { s with op := .Eql, prec := precCmp, tok := .Operator })
        else some (.ok { s with op := .NoneOp, tok := .Assign })
    else if s.ch = chr '!' then
      ebind s.nextch fun s =>
        if s.ch = chr '=' then
          ebind s.nextch fun s =>
            some (.ok { s with op := .Neq, prec := precCmp, tok := .Operator })
        else some (.ok { s with op := .LNot, prec := 0, tok := .Operator })
    else if s.ch = chr '~' then
      ebind s.nextch fun s => some (.ok { s with op := .Not, prec := 0, tok := .Operator })
    else if s.ch = chr '?' then some (simpleTokS s .Cond)
    else
      some (.error (s.errS ("invalid character " ++ String.mk [Char.ofNat s.ch.toNat])))

/-- A scanned token: the scanner fields captured after one `next()`
(the side-channel fields may be stale, as in the source). -/
structure Tok where
  tok : Token
  lit : String := ""
  kind : LitKind := .Int
  op : Operator := .NoneOp
  prec : Nat := 0
  line : Nat := 0
  col : Nat := 0
deriving DecidableEq

/-- Capture the current token. -/
def SState.toTok (s : SState) : Tok := ⟨s.tok, s.lit, s.kind, s.op, s.prec, s.line, s.col⟩

/-- Run the scanner to EOF, collecting the token stream (the parser
pulls tokens one `next()` at a time; since scanning is independent of
the parser state, pre-tokenizing is equivalent for the runs studied
here, except that a scan error surfaces before parse errors of later
tokens — none of the claims mixes the two).  The EOF token is kept as
the last element. -/
def tokenizeLoopF : Nat → SState → Option (Except ScanErr (List Tok))
  | 0, _ => none
  | fuel + 1, s =>
    obind (scanNext fuel s) fun s =>
      if s.tok = .EOF then some (.ok [s.toTok])
      else
        match tokenizeLoopF fuel s with
        | none => none
        | some (.error e) => some (.error e)
        | some (.ok ts) => some (.ok (s.toTok :: ts))

/-- Tokenize an input string from a fresh scanner. -/
def tokenizeF (fuel : Nat) (input : String) : Option (Except ScanErr (List Tok)) :=
  tokenizeLoopF fuel (SState.init input)

/-! ## Package `syntax`: the AST (nodes.go)

The Go nodes are interface-sealed records; here each capability set
(`Expr`, `Stmt`, `Decl`) is a sum, each variant carrying the fields of
the corresponding struct plus its `Pos` as a 1-based `(line, col)`
pair (the `src.Pos` packing and file interning are the `Src` namespace
above and are orthogonal to the parser).  Nilable node fields become
`Option`; `[]*Name` becomes a list of `Expr.name` nodes. -/

mutual

/-- `Expr` nodes from nodes.go.  `operation` carries `Lhs` and `Rhs`
as options: a prefix operation has no `Lhs`, a postfix operation has
no `Rhs` (the parser leaves `Operation.Rhs` nil in `postfixUnary`).
`procE` is `ProcExpr` (its `type` is always a `procT`); `index` is the
`IndexExpr` node — its declaration is not among the given sources,
only its use in `parser.go`; modelled from the spec grammar
`Primary := Atom { ... | "[" Expr "]" }` with fields `X`, `Index` and
the position of the `[`. -/
inductive Expr where
  | name (value : String) (pos : Nat × Nat)
  | literal (value : String) (kind : LitKind) (pos : Nat × Nat)
  | procE (type : Expr) (body : Stmt) (pos : Nat × Nat)
  | operation (op : Operator) (lhs : Option Expr) (rhs : Option Expr) (pos : Nat × Nat)
  | ternary (cond : Expr) (a : Expr) (b : Expr) (pos : Nat × Nat)
  | call (proc : Expr) (args : List Expr) (pos : Nat × Nat)
  | cast (type : Expr) (x : Expr) (pos : Nat × Nat)
  | index (x : Expr) (idx : Expr) (pos : Nat × Nat)
  | listE (list : List Expr) (pos : Nat × Nat)
  | pointerT (isConst : Bool) (elem : Expr) (pos : Nat × Nat)
  | optionT (elem : Expr) (pos : Nat × Nat)
  | arrayT (len : Expr) (elem : Expr) (pos : Nat × Nat)
  | procT (params : List Field) (result : Option Expr) (pos : Nat × Nat)

/-- `Field` from nodes.go: a possibly named field of a parameter list
(`name` is an `Expr.name` when present). -/
inductive Field where
  | mk (name : Option Expr) (type : Expr) (isConst : Bool) (pos : Nat × Nat)

/-- `Stmt` nodes from nodes.go.  The parser never assigns
`BlockStmt.Closing`, so `closing` stays the zero position `(0, 0)`. -/
inductive Stmt where
  | block (stmts : List Stmt) (closing : Nat × Nat) (pos : Nat × Nat)
  | exprS (x : Expr) (pos : Nat × Nat)
  | declS (d : Decl) (pos : Nat × Nat)
  | assign (op : Operator) (lhs : Expr) (rhs : Expr) (pos : Nat × Nat)
  | returnS (result : Option Expr) (pos : Nat × Nat)

/-- `Decl` nodes from nodes.go. -/
inductive Decl where
  | constD (names : List Expr) (type : Option Expr) (values : Expr) (pos : Nat × Nat)
  | varD (names : List Expr) (type : Option Expr) (values : Option Expr) (pos : Nat × Nat)

end

/-- `Node.Pos()` on expressions. -/
def Expr.posOf : Expr → Nat × Nat
  | .name _ p => p
  | .literal _ _ p => p
  | .procE _ _ p => p
  | .operation _ _ _ p => p
  | .ternary _ _ _ p => p
  | .call _ _ p => p
  | .cast _ _ p => p
  | .index _ _ p => p
  | .listE _ p => p
  | .pointerT _ _ p => p
  | .optionT _ p => p
  | .arrayT _ _ p => p
  | .procT _ _ p => p

/-- `File` from nodes.go. -/
structure FileN where
  declList : List Decl
  eof : Nat × Nat
  pos : Nat × Nat

/-! ## Package `syntax`: the parser (parser.go)

The Go parser embeds the scanner and pulls one token per `p.next()`;
scanning does not depend on parser state, so the embedding runs the
scanner to EOF first (`tokenizeF`) and lets the parser walk the token
list: `cur` is the current token, `advance` is `p.next()` (at EOF it
stays on the EOF token, as rescanning does).  Every parser function
takes fuel and returns `none` when it runs out; a bailed-out
`SyntaxError` is `Except.error`. -/

/-- The parser's view of the token stream. -/
structure PState where
  cur : Tok
  toks : List Tok

/-- `p.next()`: step to the next token (EOF repeats itself). -/
def PState.advance (p : PState) : PState :=
  match p.toks with
  | [] => p
  | t :: ts => ⟨t, ts⟩

/-- The initial parser state: a dummy current token before the first
`p.next()` of `file()`. -/
def PState.fromToks (toks : List Tok) : PState :=
  ⟨⟨.EOF, "", .Int, .NoneOp, 0, 0, 0⟩, toks⟩

/-- `p.pos()`: the position of the current token. -/
def PState.pos (p : PState) : Nat × Nat := (p.cur.line, p.cur.col)

/-- `p.error(msg)`: a syntax error at the current token. -/
def perr (p : PState) (msg : String) : ScanErr := ⟨p.cur.line, p.cur.col, msg⟩

/-- `p.got(tok)` from parser.go. -/
def PState.got (p : PState) (t : Token) : Bool × PState :=
  if p.cur.tok = t then (true, p.advance) else (false, p)

/-- `p.want(tok)` from parser.go: the matched token's position, or the
error "expected <tok>". -/
def PState.want (p : PState) (t : Token) : Except ScanErr ((Nat × Nat) × PState) :=
  if p.cur.tok ≠ t then .error (perr p ("expected " ++ t.str))
  else .ok (p.pos, p.advance)

/-- `p.semi()` from parser.go. -/
def PState.semiE (p : PState) : Except ScanErr PState :=
  if p.cur.tok ≠ .Semi then .error (perr p "expected semicolon")
  else .ok p.advance

/-- Sequence two fueled parser steps (the second sees the value and
the parser state produced by the first). -/
def pbind {α β : Type} (x : Option (Except ScanErr (α × PState)))
    (f : α → PState → Option (Except ScanErr (β × PState))) :
    Option (Except ScanErr (β × PState)) :=
  match x with
  | none => none
  | some (.error e) => some (.error e)
  | some (.ok (a, p)) => f a p

/-- `p.name()` from parser.go (not fueled: no recursion). -/
def nameE (p : PState) : Except ScanErr (Expr × PState) :=
  if p.cur.tok ≠ .Name then .error (perr p "expected a name")
  else .ok (.name p.cur.lit (p.cur.line, p.cur.col), p.advance)

/-- `p.assign(lhs, op, rhs)` from parser.go: expect the statement's
semicolon, then build the `AssignStmt` positioned at `lhs.Pos()`. -/
def assignE (lhs : Expr) (op : Operator) (rhs : Expr) (p : PState) :
    Option (Except ScanErr (Stmt × PState)) :=
  ebind p.semiE fun p => some (.ok (.assign op lhs rhs lhs.posOf, p))

mutual

/-- `file()` from parser.go: read the first token, then declarations
until EOF. -/
def fileF : Nat → PState → Option (Except ScanErr (FileN × PState))
  | 0, _ => none
  | fuel + 1, p =>
    let p := p.advance
    let pos := p.pos
    pbind (fileLoopF fuel [] p) fun decls p =>
      some (.ok (⟨decls, p.pos, pos⟩, p))

/-- The declaration loop of `file()`. -/
def fileLoopF : Nat → List Decl → PState → Option (Except ScanErr (List Decl × PState))
  | 0, _, _ => none
  | fuel + 1, acc, p =>
    if p.cur.tok ≠ .EOF then
      pbind (declF fuel p) fun d p => fileLoopF fuel (acc ++ [d]) p
    else some (.ok (acc, p))

/-- `decl(global)` from parser.go (the `global` flag is accepted but
never consulted in the source, so it is not a parameter here):
`const` or `var`, anything else is an error. -/
def declF : Nat → PState → Option (Except ScanErr (Decl × PState))
  | 0, _ => none
  | fuel + 1, p =>
    match p.cur.tok with
    | .Const => constDeclF fuel p
    | .Var => varDeclF fuel p
    | _ => some (.error (perr p "expected a declaration"))

/-- `constDecl()` from parser.go. -/
def constDeclF : Nat → PState → Option (Except ScanErr (Decl × PState))
  | 0, _ => none
  | fuel + 1, p =>
    ebind (p.want .Const) fun r =>
    pbind (nameListF fuel r.2) fun names p =>
    pbind (annotationOrNilF fuel p) fun typ p =>
    pbind (initializationF fuel .Const p) fun values p =>
    ebind p.semiE fun p =>
      some (.ok (.constD names typ values r.1, p))

/-- `varDecl()` from parser.go: without a type annotation an
initialization is mandatory; with one it is optional. -/
def varDeclF : Nat → PState → Option (Except ScanErr (Decl × PState))
  | 0, _ => none
  | fuel + 1, p =>
    ebind (p.want .Var) fun r =>
    pbind (nameListF fuel r.2) fun names p =>
    pbind (annotationOrNilF fuel p) fun typ p =>
    match typ with
    | none =>
      pbind (initializationF fuel .Var p) fun values p =>
      ebind p.semiE fun p =>
        some (.ok (.varD names none (some values) r.1, p))
    | some t =>
      let g := p.got .Assign
      if g.1 then
        pbind (exprListF fuel g.2) fun values p =>
        ebind p.semiE fun p =>
          some (.ok (.varD names (some t) (some values) r.1, p))
      else
        ebind g.2.semiE fun p =>
          some (.ok (.varD names (some t) none r.1, p))

/-- `initialization(tok)` from parser.go. -/
def initializationF : Nat → Token → PState → Option (Except ScanErr (Expr × PState))
  | 0, _, _ => none
  | fuel + 1, tok, p =>
    let g := p.got .Assign
    if g.1 then exprListF fuel g.2
    else
      some (.error (perr g.2
        ("expected an initialization" ++ if tok = .Var then " or type annotation" else "")))

/-- `annotationOrNil()` from parser.go. -/
def annotationOrNilF : Nat → PState → Option (Except ScanErr (Option Expr × PState))
  | 0, _ => none
  | fuel + 1, p =>
    let g := p.got .Colon
    if g.1 then
      pbind (type_F fuel g.2) fun t p => some (.ok (some t, p))
    else some (.ok (none, g.2))

/-- The leading-semicolon (empty statement) skip loop of `stmt()`. -/
def skipSemisF : Nat → PState → Option (Except ScanErr PState)
  | 0, _ => none
  | fuel + 1, p =>
    if p.cur.tok = .Semi then skipSemisF fuel p.advance
    else some (.ok p)

/-- `stmt()` from parser.go. -/
def stmtF : Nat → PState → Option (Except ScanErr (Stmt × PState))
  | 0, _ => none
  | fuel + 1, p =>
    match skipSemisF fuel p with
    | none => none
    | some (.error e) => some (.error e)
    | some (.ok p) =>
      if p.cur.tok = .Name then simpleStmtF fuel p
      else
        match p.cur.tok with
        | .Const => declStmtF fuel p
        | .Var => declStmtF fuel p
        | .Lbrace => blockStmtF fuel p
        | .Return => returnStmtF fuel p
        | _ => simpleStmtF fuel p

/-- `simpleStmt()` from parser.go: a `ListExpr` left-hand side admits
only `=`; a single expression admits `op=`, `=`, or a bare expression
statement. -/
def simpleStmtF : Nat → PState → Option (Except ScanErr (Stmt × PState))
  | 0, _ => none
  | fuel + 1, p =>
    pbind (exprListF fuel p) fun lhs p =>
      match lhs with
      | .listE l lp =>
        let g := p.got .Assign
        if g.1 then
          pbind (exprListF fuel g.2) fun rhs p => assignE (.listE l lp) .NoneOp rhs p
        else some (.error (perr g.2 "expected \"=\" or comma"))
      | _ =>
        match p.cur.tok with
        | .AssignOp =>
          let op := p.cur.op
          let p := p.advance
          pbind (exprF fuel p) fun rhs p => assignE lhs op rhs p
        | .Assign =>
          let p := p.advance
          pbind (exprF fuel p) fun rhs p => assignE lhs .NoneOp rhs p
        | _ =>
          ebind p.semiE fun p => some (.ok (.exprS lhs lhs.posOf, p))

/-- `declStmt()` from parser.go. -/
def declStmtF : Nat → PState → Option (Except ScanErr (Stmt × PState))
  | 0, _ => none
  | fuel + 1, p =>
    let pos := p.pos
    pbind (declF fuel p) fun d p => some (.ok (.declS d pos, p))

/-- `blockStmt()` from parser.go (`Closing` is never assigned in the
source and stays the zero position). -/
def blockStmtF : Nat → PState → Option (Except ScanErr (Stmt × PState))
  | 0, _ => none
  | fuel + 1, p =>
    ebind (p.want .Lbrace) fun r =>
    pbind (blockLoopF fuel [] r.2) fun stmts p =>
    ebind (p.want .Rbrace) fun r2 =>
      some (.ok (.block stmts (0, 0) r.1, r2.2))

/-- The statement loop of `blockStmt()`. -/
def blockLoopF : Nat → List Stmt → PState → Option (Except ScanErr (List Stmt × PState))
  | 0, _, _ => none
  | fuel + 1, acc, p =>
    if p.cur.tok ≠ .EOF ∧ p.cur.tok ≠ .Rbrace then
      pbind (stmtF fuel p) fun st p => blockLoopF fuel (acc ++ [st]) p
    else some (.ok (acc, p))

/-- `returnStmt()` from parser.go (single-valued). -/
def returnStmtF : Nat → PState → Option (Except ScanErr (Stmt × PState))
  | 0, _ => none
  | fuel + 1, p =>
    ebind (p.want .Return) fun r =>
    let p := r.2
    if p.cur.tok ≠ .Semi then
      pbind (exprF fuel p) fun x p =>
      ebind p.semiE fun p => some (.ok (.returnS (some x) r.1, p))
    else
      ebind p.semiE fun p => some (.ok (.returnS none r.1, p))

/-- `expr()` from parser.go: a binary chain, then an optional
right-associative ternary. -/
def exprF : Nat → PState → Option (Except ScanErr (Expr × PState))
  | 0, _ => none
  | fuel + 1, p =>
    pbind (binaryExprF fuel none 0 p) fun x p =>
      let g := p.got .Cond
      if g.1 then
        pbind (exprF fuel g.2) fun a p =>
        ebind (p.want .Colon) fun r =>
        pbind (exprF fuel r.2) fun b p =>
          some (.ok (.ternary x a b x.posOf, p))
      else some (.ok (x, g.2))

/-- `exprList()` from parser.go: a single expression, or a `ListExpr`
of at least two items positioned at the first item. -/
def exprListF : Nat → PState → Option (Except ScanErr (Expr × PState))
  | 0, _ => none
  | fuel + 1, p =>
    pbind (exprF fuel p) fun x p =>
      let g := p.got .Comma
      if g.1 then
        pbind (exprF fuel g.2) fun y p =>
        pbind (exprListLoopF fuel [x, y] p) fun list p =>
          some (.ok (.listE list x.posOf, p))
      else some (.ok (x, g.2))

/-- The comma loop of `exprList()`. -/
def exprListLoopF : Nat → List Expr → PState → Option (Except ScanErr (List Expr × PState))
  | 0, _, _ => none
  | fuel + 1, acc, p =>
    let g := p.got .Comma
    if g.1 then
      pbind (exprF fuel g.2) fun z p => exprListLoopF fuel (acc ++ [z]) p
    else some (.ok (acc, g.2))

/-- `binaryExpr(x, prec)` from parser.go: precedence climbing; a nil
`x` first parses the left operand. -/
def binaryExprF : Nat → Option Expr → Nat → PState → Option (Except ScanErr (Expr × PState))
  | 0, _, _, _ => none
  | fuel + 1, x, prec, p =>
    match x with
    | none => pbind (unaryExprF fuel p) fun x p => binaryLoopF fuel x prec p
    | some x => binaryLoopF fuel x prec p

/-- The operator loop of `binaryExpr`: while the current token is an
operator (or `*`) of precedence above `prec`, build an `Operation`
positioned at the operator and recurse on the right at that
precedence. -/
def binaryLoopF : Nat → Expr → Nat → PState → Option (Except ScanErr (Expr × PState))
  | 0, _, _, _ => none
  | fuel + 1, x, prec, p =>
    if (p.cur.tok = .Operator ∨ p.cur.tok = .Star) ∧ p.cur.prec > prec then
      let pos := p.pos
      let op := p.cur.op
      let tprec := p.cur.prec
      let p := p.advance
      pbind (binaryExprF fuel none tprec p) fun rhs p =>
        binaryLoopF fuel (.operation op (some x) (some rhs) pos) prec p
    else some (.ok (x, p))

/-- `unaryExpr()` from parser.go. -/
def unaryExprF : Nat → PState → Option (Except ScanErr (Expr × PState))
  | 0, _ => none
  | fuel + 1, p =>
    pbind (if p.cur.tok = .Operator then prefixUnaryF fuel p else primaryExprF fuel p)
      fun x p => postfixLoopF fuel x p

/-- `prefixUnary()` from parser.go: one of `+ - & ~ ! ++ --` (not a
loop), anything else is "expected a unary expression". -/
def prefixUnaryF : Nat → PState → Option (Except ScanErr (Expr × PState))
  | 0, _ => none
  | fuel + 1, p =>
    match p.cur.op with
    | .Add | .Sub | .And | .Not | .LNot | .Inc | .Dec =>
      let pos := p.pos
      let op := p.cur.op
      let p := p.advance
      pbind (unaryExprF fuel p) fun rhs p =>
        some (.ok (.operation op none (some rhs) pos, p))
    | _ => some (.error (perr p "expected a unary expression"))

/-- `postfixUnary(x)` from parser.go, translated exactly: the loop
runs while the current token is `_Operator`; `++`, `--` and `.*`
consume the token and wrap `x`; for any other operator value the
switch has no case, so the loop body changes nothing and the loop
condition is retested on the unchanged state. -/
def postfixLoopF : Nat → Expr → PState → Option (Except ScanErr (Expr × PState))
  | 0, _, _ => none
  | fuel + 1, x, p =>
    if p.cur.tok = .Operator then
      match p.cur.op with
      | .Inc | .Dec | .Deref =>
        let pos := p.pos
        let op := p.cur.op
        let p := p.advance
        postfixLoopF fuel (.operation op (some x) none pos) p
      | _ => postfixLoopF fuel x p
    else some (.ok (x, p))

/-- `primaryExpr()` from parser.go: an atom, then calls and indexes. -/
def primaryExprF : Nat → PState → Option (Except ScanErr (Expr × PState))
  | 0, _ => none
  | fuel + 1, p =>
    pbind (atomExprF fuel p) fun x p => primaryLoopF fuel x p

/-- The call/index loop of `primaryExpr()`. -/
def primaryLoopF : Nat → Expr → PState → Option (Except ScanErr (Expr × PState))
  | 0, _, _ => none
  | fuel + 1, x, p =>
    match p.cur.tok with
    | .Lparen => pbind (callExprF fuel x p) fun x p => primaryLoopF fuel x p
    | .Lbrack => pbind (indexExprF fuel x p) fun x p => primaryLoopF fuel x p
    | _ => some (.ok (x, p))

/-- `atomExpr()` from parser.go. -/
def atomExprF : Nat → PState → Option (Except ScanErr (Expr × PState))
  | 0, _ => none
  | fuel + 1, p =>
    pbind (atomOrNilF fuel p) fun x p =>
      match x with
      | some x => some (.ok (x, p))
      | none => some (.error (perr p "expected an expression"))

/-- `atomExprOrNil()` from parser.go: names, literals, a parenthesized
expression possibly followed by another atom (a cast `(T)x`), `proc`
types and literals; otherwise fall through to `typeOrNil`. -/
def atomOrNilF : Nat → PState → Option (Except ScanErr (Option Expr × PState))
  | 0, _ => none
  | fuel + 1, p =>
    match p.cur.tok with
    | .Name => ebind (nameE p) fun r => some (.ok (some r.1, r.2))
    | .Literal =>
      some (.ok (some (.literal p.cur.lit p.cur.kind (p.cur.line, p.cur.col)), p.advance))
    | .Lparen =>
      let pos := p.pos
      let p := p.advance
      pbind (exprF fuel p) fun x p =>
      ebind (p.want .Rparen) fun r =>
      pbind (atomOrNilF fuel r.2) fun t p =>
        match t with
        | some t => some (.ok (some (.cast x t pos), p))
        | none => some (.ok (some x, p))
    | .Proc =>
      pbind (procTypeF fuel p) fun typ p =>
        if p.cur.tok = .Lbrace then
          pbind (blockStmtF fuel p) fun body p =>
            some (.ok (some (.procE typ body typ.posOf), p))
        else some (.ok (some typ, p))
    | _ => typeOrNilF fuel p

/-- `callExpr(x)` from parser.go, positioned at the `(`. -/
def callExprF : Nat → Expr → PState → Option (Except ScanErr (Expr × PState))
  | 0, _, _ => none
  | fuel + 1, x, p =>
    let pos := p.pos
    ebind (p.want .Lparen) fun r =>
      let p := r.2
      let g := p.got .Rparen
      if g.1 then some (.ok (.call x [] pos, g.2))
      else
        pbind (exprF fuel g.2) fun a p =>
        pbind (callLoopF fuel [a] p) fun args p =>
        ebind (p.want .Rparen) fun r2 =>
          some (.ok (.call x args pos, r2.2))

/-- The argument loop of `callExpr`. -/
def callLoopF : Nat → List Expr → PState → Option (Except ScanErr (List Expr × PState))
  | 0, _, _ => none
  | fuel + 1, acc, p =>
    let g := p.got .Comma
    if g.1 then
      pbind (exprF fuel g.2) fun z p => callLoopF fuel (acc ++ [z]) p
    else some (.ok (acc, g.2))

/-- `indexExpr(x)` from parser.go, positioned at the `[`. -/
def indexExprF : Nat → Expr → PState → Option (Except ScanErr (Expr × PState))
  | 0, _, _ => none
  | fuel + 1, x, p =>
    let pos := p.pos
    ebind (p.want .Lbrack) fun r =>
    pbind (exprF fuel r.2) fun idx p =>
    ebind (p.want .Rbrack) fun r2 =>
      some (.ok (.index x idx pos, r2.2))

/-- `nameList()` from parser.go. -/
def nameListF : Nat → PState → Option (Except ScanErr (List Expr × PState))
  | 0, _ => none
  | fuel + 1, p =>
    ebind (nameE p) fun r =>
      nameListLoopF fuel [r.1] r.2

/-- The comma loop of `nameList()`. -/
def nameListLoopF : Nat → List Expr → PState → Option (Except ScanErr (List Expr × PState))
  | 0, _, _ => none
  | fuel + 1, acc, p =>
    let g := p.got .Comma
    if g.1 then
      ebind (nameE g.2) fun r => nameListLoopF fuel (acc ++ [r.1]) r.2
    else some (.ok (acc, g.2))

/-- `type_()` from parser.go. -/
def type_F : Nat → PState → Option (Except ScanErr (Expr × PState))
  | 0, _ => none
  | fuel + 1, p =>
    pbind (typeOrNilF fuel p) fun t p =>
      match t with
      | some t => some (.ok (t, p))
      | none => some (.error (perr p "expected a type"))

/-- `typeOrNil()` from parser.go: `Name`, `*` `const`? Type, `?` Type,
`[` Expr `]` Type, or `proc` ParamList Type?. -/
def typeOrNilF : Nat → PState → Option (Except ScanErr (Option Expr × PState))
  | 0, _ => none
  | fuel + 1, p =>
    match p.cur.tok with
    | .Name => ebind (nameE p) fun r => some (.ok (some r.1, r.2))
    | .Star =>
      let pos := p.pos
      let p := p.advance
      let g := p.got .Const
      pbind (type_F fuel g.2) fun elem p =>
        some (.ok (some (.pointerT g.1 elem pos), p))
    | .Cond =>
      let pos := p.pos
      let p := p.advance
      pbind (type_F fuel p) fun elem p =>
        some (.ok (some (.optionT elem pos), p))
    | .Lbrack =>
      let pos := p.pos
      let p := p.advance
      pbind (exprF fuel p) fun len p =>
      ebind (p.want .Rbrack) fun r =>
      pbind (type_F fuel r.2) fun elem p =>
        some (.ok (some (.arrayT len elem pos), p))
    | .Proc =>
      pbind (procTypeF fuel p) fun t p => some (.ok (some t, p))
    | _ => some (.ok (none, p))

/-- `procType()` from parser.go. -/
def procTypeF : Nat → PState → Option (Except ScanErr (Expr × PState))
  | 0, _ => none
  | fuel + 1, p =>
    ebind (p.want .Proc) fun r =>
    pbind (paramListF fuel r.2) fun params p =>
    pbind (typeOrNilF fuel p) fun res p =>
      some (.ok (.procT params res r.1, p))

/-- `paramList()` from parser.go: fields between parentheses; after
the closing `)`, a list that mixed named and unnamed fields is a
single error at the opening `(`. -/
def paramListF : Nat → PState → Option (Except ScanErr (List Field × PState))
  | 0, _ => none
  | fuel + 1, p =>
    ebind (p.want .Lparen) fun r =>
      let pos := r.1
      let p := r.2
      let g := p.got .Rparen
      if g.1 then some (.ok ([], g.2))
      else
        pbind (paramLoopF fuel [] false false p) fun res p =>
        ebind (p.want .Rparen) fun r2 =>
          if res.2.1 ∧ res.2.2 then
            some (.error ⟨pos.1, pos.2, "got mixed named and unnamed parameters"⟩)
          else some (.ok (res.1, r2.2))

/-- The field loop of `paramList()`, threading the `named`/`unnamed`
flags; after each field a comma is required unless the `)` follows. -/
def paramLoopF : Nat → List Field → Bool → Bool → PState →
    Option (Except ScanErr ((List Field × Bool × Bool) × PState))
  | 0, _, _, _, _ => none
  | fuel + 1, acc, named, unnamed, p =>
    if p.cur.tok ≠ .EOF ∧ p.cur.tok ≠ .Rparen then
      pbind (fieldF fuel p) fun fr p =>
        let acc := acc ++ [fr.1]
        let named := named || fr.2
        let unnamed := unnamed || !fr.2
        let g := p.got .Comma
        if ¬g.1 ∧ g.2.cur.tok ≠ .Rparen then
          some (.error (perr g.2 "expected a comma or \")\""))
        else paramLoopF fuel acc named unnamed g.2
    else some (.ok ((acc, named, unnamed), p))

/-- `field()` from parser.go: an optional `const`, then a type; if the
type is a single `Name` followed by a `:` annotation, that name is
reinterpreted as the field name.  The second component reports whether
the field is named. -/
def fieldF : Nat → PState → Option (Except ScanErr ((Field × Bool) × PState))
  | 0, _ => none
  | fuel + 1, p =>
    let pos := p.pos
    let g := p.got .Const
    pbind (type_F fuel g.2) fun x p =>
      match x with
      | .name nm npos =>
        pbind (annotationOrNilF fuel p) fun typ p =>
          match typ with
          | none => some (.ok ((.mk none (.name nm npos) g.1 pos, false), p))
          | some typ => some (.ok ((.mk (some (.name nm npos)) typ g.1 pos, true), p))
      | _ => some (.ok ((.mk none x g.1 pos, false), p))

end

/-- `Parse(reader, name)` from syntax.go: scan and parse the input; a
bailed-out syntax error yields a nil `File` and the error (`Except.error`
here); `none` when the fuel runs out. -/
def ParseF (fuel : Nat) (input : String) : Option (Except ScanErr FileN) :=
  match tokenizeF fuel input with
  | none => none
  | some (.error e) => some (.error e)
  | some (.ok toks) =>
    match fileF fuel (PState.fromToks toks) with
    | none => none
    | some (.error e) => some (.error e)
    | some (.ok (f, _)) => some (.ok f)

end Syn

/-! ### Concrete data for the claims about scanner/parser runs -/

namespace Syn

/-- The token stream of `const x : int32 = 42;` (side-channel fields
as the scanner leaves them, stale values included). -/
def constX42Toks : List Tok :=
  [⟨.Const, "", .Int, .NoneOp, 0, 1, 1⟩,
   ⟨.Name, "x", .Int, .NoneOp, 0, 1, 7⟩,
   ⟨.Colon, "x", .Int, .NoneOp, 0, 1, 9⟩,
   ⟨.Name, "int32", .Int, .NoneOp, 0, 1, 11⟩,
   ⟨.Assign, "int32", .Int, .NoneOp, 0, 1, 17⟩,
   ⟨.Literal, "42", .Int, .NoneOp, 0, 1, 19⟩,
   ⟨.Semi, "42", .Int, .NoneOp, 0, 1, 21⟩,
   ⟨.EOF, "42", .Int, .NoneOp, 0, 1, 22⟩]

/-- The token stream of `const c = x + y;`. -/
def constXPlusYToks : List Tok :=
  [⟨.Const, "", .Int, .NoneOp, 0, 1, 1⟩,
   ⟨.Name, "c", .Int, .NoneOp, 0, 1, 7⟩,
   ⟨.Assign, "c", .Int, .NoneOp, 0, 1, 9⟩,
   ⟨.Name, "x", .Int, .NoneOp, 0, 1, 11⟩,
   ⟨.Operator, "x", .Int, .Add, 4, 1, 13⟩,
   ⟨.Name, "y", .Int, .Add, 4, 1, 15⟩,
   ⟨.Semi, "y", .Int, .Add, 4, 1, 16⟩,
   ⟨.EOF, "y", .Int, .Add, 4, 1, 17⟩]

/-- The left operand already parsed when the parser of `const c = x + y;`
reaches `postfixUnary`: the `Name` node for `x`. -/
def plusStuckExpr : Expr := .name "x" (1, 11)

/-- The parser state at that point: the current token is the binary
operator `+`, which `postfixUnary`'s loop neither consumes nor exits on. -/
def plusStuckState : PState :=
  ⟨⟨.Operator, "x", .Int, .Add, 4, 1, 13⟩,
   [⟨.Name, "y", .Int, .Add, 4, 1, 15⟩, ⟨.Semi, "y", .Int, .Add, 4, 1, 16⟩,
    ⟨.EOF, "y", .Int, .Add, 4, 1, 17⟩]⟩

/-- The `File` produced for `const x : int32 = 42;`. -/
def constX42File : FileN :=
  { declList := [.constD
      [.name "x" (1, 7)]
      (some (.name "int32" (1, 11)))
      (.literal "42" .Int (1, 19))
      (1, 1)],
    eof := (1, 22),
    pos := (1, 1) }

/-- A schematic parameter-list field: an optional name and a type name.
`(none, t)` is an unnamed field `t`; `(some n, t)` is a named field `n : t`. -/
def SFieldT : Type := Option String × String

/-- A `Name` token carrying string `s` (position and side-channel fields
fixed, which `paramList`/`field` never inspect on these tokens). -/
def nameTok (s : String) : Tok := ⟨.Name, s, .Int, .NoneOp, 0, 0, 0⟩

/-- A `Colon` token as it appears inside a parameter list. -/
def colonTok : Tok := ⟨.Colon, "", .Int, .NoneOp, 0, 0, 0⟩

/-- A `Comma` token as it appears inside a parameter list. -/
def commaTok : Tok := ⟨.Comma, "", .Int, .NoneOp, 0, 0, 0⟩

/-- The closing `Rparen` token of a parameter list. -/
def rparenTok : Tok := ⟨.Rparen, "", .Int, .NoneOp, 0, 0, 0⟩

/-- The opening `Lparen` token of a parameter list, at the given position
(`paramList` records this position for the mixed-parameters error). -/
def lparenTok (line col : Nat) : Tok := ⟨.Lparen, "", .Int, .NoneOp, 0, line, col⟩

/-- Render one schematic field as tokens, with its trailing comma
(`paramList` accepts a trailing comma before `)`). -/
def renderField : SFieldT → List Tok
  | (none, t) => [nameTok t, commaTok]
  | (some n, t) => [nameTok n, colonTok, nameTok t, commaTok]

/-- Render a whole schematic parameter list as tokens. -/
def renderFields : List SFieldT → List Tok
  | [] => []
  | f :: fs => renderField f ++ renderFields fs

/-- The `Field` node `field` builds for a schematic field. -/
def fieldNode : SFieldT → Field
  | (none, t) => .mk none (.name t (0, 0)) false (0, 0)
  | (some n, t) => .mk (some (.name n (0, 0))) (.name t (0, 0)) false (0, 0)

/-- Whether any schematic field is named. -/
def anyNamed (fs : List SFieldT) : Bool := fs.any fun f => f.1.isSome

/-- Whether any schematic field is unnamed. -/
def anyUnnamed (fs : List SFieldT) : Bool := fs.any fun f => f.1.isNone

/-- The token stream of `var p : proc(int32, x: int32);`, a declaration
whose parameter list mixes an unnamed and a named field. -/
def mixedParamToks : List Tok :=
  [⟨.Var, "", .Int, .NoneOp, 0, 1, 1⟩,
   ⟨.Name, "p", .Int, .NoneOp, 0, 1, 5⟩,
   ⟨.Colon, "p", .Int, .NoneOp, 0, 1, 7⟩,
   ⟨.Proc, "p", .Int, .NoneOp, 0, 1, 9⟩,
   ⟨.Lparen, "p", .Int, .NoneOp, 0, 1, 13⟩,
   ⟨.Name, "int32", .Int, .NoneOp, 0, 1, 14⟩,
   ⟨.Comma, "int32", .Int, .NoneOp, 0, 1, 19⟩,
   ⟨.Name, "x", .Int, .NoneOp, 0, 1, 21⟩,
   ⟨.Colon, "x", .Int, .NoneOp, 0, 1, 22⟩,
   ⟨.Name, "int32", .Int, .NoneOp, 0, 1, 24⟩,
   ⟨.Rparen, "int32", .Int, .NoneOp, 0, 1, 29⟩,
   ⟨.Semi, "int32", .Int, .NoneOp, 0, 1, 30⟩,
   ⟨.EOF, "int32", .Int, .NoneOp, 0, 1, 31⟩]

end Syn

/-! ### Claims C9 and C10 -/

/-- C9: for every scope `s` and symbol `sym` whose name is already bound
in `s`'s element map, `s.Insert(sym)` returns the pre-existing binding
for that name and leaves the element map unchanged; when the name is not
yet bound, `Insert` adds the binding and returns nil. -/
theorem C9_scope_insert (s : Types.Scope) (sym : Types.Symbol) :
    (∀ alt, s.Lookup sym.name = some alt → s.Insert sym = (some alt, s)) ∧
    (s.Lookup sym.name = none →
      (s.Insert sym).1 = none ∧
      (s.Insert sym).2.elems =
        (sym.name,
          if sym.scope = none then { sym with scope := some s.id } else sym) :: s.elems ∧
      (s.Insert sym).2.Lookup sym.name =
        some (if sym.scope = none then { sym with scope := some s.id } else sym)) := by
  constructor
  · intro alt h
    unfold Types.Scope.Insert
    rw [h]
  · intro h
    unfold Types.Scope.Insert
    rw [h]
    refine ⟨rfl, rfl, ?_⟩
    unfold Types.Scope.Lookup
    simp [List.find?]

/-- Witness for C9 at concrete inputs: a scope whose map binds `x`; a
colliding insert of another symbol named `x` returns the original
binding and leaves the scope unchanged, and an insert of the unbound
name `y` returns nil and adds the binding. -/
theorem C9_scope_insert_witness :
    ((Types.Scope.mk 1 [("x", ⟨"x", ⟨1, 5⟩, some 1⟩)] ⟨0, 0⟩ ⟨0, 0⟩).Lookup "x" =
        some ⟨"x", ⟨1, 5⟩, some 1⟩ ∧
      (Types.Scope.mk 1 [("x", ⟨"x", ⟨1, 5⟩, some 1⟩)] ⟨0, 0⟩ ⟨0, 0⟩).Insert ⟨"x", ⟨2, 7⟩, none⟩ =
        (some ⟨"x", ⟨1, 5⟩, some 1⟩, Types.Scope.mk 1 [("x", ⟨"x", ⟨1, 5⟩, some 1⟩)] ⟨0, 0⟩ ⟨0, 0⟩)) ∧
    ((Types.Scope.mk 1 [("x", ⟨"x", ⟨1, 5⟩, some 1⟩)] ⟨0, 0⟩ ⟨0, 0⟩).Lookup "y" = none ∧
      ((Types.Scope.mk 1 [("x", ⟨"x", ⟨1, 5⟩, some 1⟩)] ⟨0, 0⟩ ⟨0, 0⟩).Insert ⟨"y", ⟨3, 1⟩, none⟩).1 =
        none) := by
  refine ⟨⟨by decide, ?_⟩, by decide, ?_⟩
  · exact (C9_scope_insert (Types.Scope.mk 1 [("x", ⟨"x", ⟨1, 5⟩, some 1⟩)] ⟨0, 0⟩ ⟨0, 0⟩)
      ⟨"x", ⟨2, 7⟩, none⟩).1 ⟨"x", ⟨1, 5⟩, some 1⟩ (by decide)
  · exact ((C9_scope_insert (Types.Scope.mk 1 [("x", ⟨"x", ⟨1, 5⟩, some 1⟩)] ⟨0, 0⟩ ⟨0, 0⟩)
      ⟨"y", ⟨3, 1⟩, none⟩).2 (by decide)).1

/-- C10: for every pair of positions `p` and `q` (known or unknown),
`p.Before(q)` returns true if and only if `q.After(p)` returns true: the
two ordering predicates are exact converses. -/
theorem C10_before_after_converse (p q : Src.Pos) : p.Before q = q.After p := by
  unfold Src.Pos.Before Src.Pos.After
  by_cases h : p.index = q.index
  · simp [h, gt_iff_lt]
  · have e1 : (p.index == q.index) = false := beq_eq_false_iff_ne.mpr h
    have e2 : (q.index == p.index) = false := beq_eq_false_iff_ne.mpr fun e => h e.symm
    simp [e1, e2]

/-! ### Claim C1 (termination of Parse) -/

/-- A fueled parser step built from a `none` (never-terminating) first
component is itself `none`; helper for the non-termination proof. -/
theorem Syn.pbind_eq_none {α β : Type} (x : Option (Except Syn.ScanErr (α × Syn.PState)))
    (f : α → Syn.PState → Option (Except Syn.ScanErr (β × Syn.PState))) (h : x = none) :
    Syn.pbind x f = none := by
  rw [h]
  rfl

/-- C1: the claim states that `Parse` terminates on every input,
returning a `File` or bailing out with the first syntax error — in
particular on an expression whose primary operand is followed by a
binary operator token.  The code violates this: `postfixUnary`'s loop
`for p.tok == _Operator` has no case for binary operator values, so it
retests the same unchanged state forever.  Concretely, for
`const c = x + y;` (whose token stream is scanned without error), the
parser runs out of any amount of fuel — first at the `postfixUnary`
loop state reached after the operand `x`, hence for the whole `file()`
parse and for `Parse` itself — i.e. `Parse` never terminates on this
input.  The statement `return x + y;` inside a procedure body reaches
the same loop in the same way. -/
theorem C1_parse_nonterminating :
    Syn.tokenizeF 24 "const c = x + y;" = some (.ok Syn.constXPlusYToks) ∧
    (∀ fuel, Syn.postfixLoopF fuel Syn.plusStuckExpr Syn.plusStuckState = none) ∧
    (∀ fuel, Syn.fileF fuel (Syn.PState.fromToks Syn.constXPlusYToks) = none) ∧
    (∀ fuel, Syn.ParseF fuel "const c = x + y;" = none) := by
  have hscan : Syn.tokenizeF 24 "const c = x + y;" = some (.ok Syn.constXPlusYToks) := rfl
  have hloop : ∀ fuel, Syn.postfixLoopF fuel Syn.plusStuckExpr Syn.plusStuckState = none := by
    intro fuel
    induction fuel with
    | zero => rfl
    | succ n ih =>
      rw [show Syn.postfixLoopF (n + 1) Syn.plusStuckExpr Syn.plusStuckState =
        Syn.postfixLoopF n Syn.plusStuckExpr Syn.plusStuckState from rfl]
      exact ih
  have hfile : ∀ fuel, Syn.fileF fuel (Syn.PState.fromToks Syn.constXPlusYToks) = none := by
    intro fuel
    rcases Nat.lt_or_ge fuel 14 with h | h
    · interval_cases fuel <;> rfl
    · obtain ⟨g, rfl⟩ : ∃ g, fuel = g + 14 := ⟨fuel - 14, by omega⟩
      change Syn.pbind _ _ = none
      refine Syn.pbind_eq_none _ _ ?_
      change Syn.pbind _ _ = none
      refine Syn.pbind_eq_none _ _ ?_
      change Syn.pbind _ _ = none
      refine Syn.pbind_eq_none _ _ ?_
      change Syn.pbind _ _ = none
      refine Syn.pbind_eq_none _ _ ?_
      change Syn.pbind _ _ = none
      refine Syn.pbind_eq_none _ _ ?_
      change Syn.pbind _ _ = none
      refine Syn.pbind_eq_none _ _ ?_
      exact hloop _
  refine ⟨hscan, hloop, hfile, ?_⟩
  intro fuel
  rcases Nat.lt_or_ge fuel 10 with h | h
  · have hn : Syn.tokenizeF fuel "const c = x + y;" = none := by
      interval_cases fuel <;> rfl
    simp only [Syn.ParseF, hn]
  · obtain ⟨g, rfl⟩ : ∃ g, fuel = g + 10 := ⟨fuel - 10, by omega⟩
    have ht : Syn.tokenizeF (g + 10) "const c = x + y;" =
      some (.ok Syn.constXPlusYToks) := rfl
    simp only [Syn.ParseF, ht, hfile (g + 10)]

/-! ### Claims C3, C4 and C6 (scanner and parser runs on concrete inputs) -/

/-- C3 counterexample: the claim predicts that scanning
`const c = 0x_FF;` reports "'_' must separate successive digits", but
the scanner accepts the whole input: tokenization succeeds with
`0x_FF` as an `Int` literal, so no scan error is reported at all. -/
theorem C3_0xFF_scan_no_error :
    Syn.tokenizeF 200 "const c = 0x_FF;" = some (.ok
      [⟨.Const, "", .Int, .NoneOp, 0, 1, 1⟩,
       ⟨.Name, "c", .Int, .NoneOp, 0, 1, 7⟩,
       ⟨.Assign, "c", .Int, .NoneOp, 0, 1, 9⟩,
       ⟨.Literal, "0x_FF", .Int, .NoneOp, 0, 1, 11⟩,
       ⟨.Semi, "0x_FF", .Int, .NoneOp, 0, 1, 16⟩,
       ⟨.EOF, "0x_FF", .Int, .NoneOp, 0, 1, 17⟩]) := rfl

/-- C3 as amended: scanning `const c = 0x_FF;` succeeds with no error;
`invalidSep` treats the base prefix `0x` as a digit, so the underscore
in `0x_FF` is correctly placed (`invalidSep "0x_FF" = -1`) and the
literal is accepted with spelling `0x_FF` and kind `Int`. -/
theorem C3_0xFF_accepted :
    Syn.invalidSep "0x_FF" = -1 ∧
    Syn.tokenizeF 100 "const c = 0x_FF;" = some (.ok
      [⟨.Const, "", .Int, .NoneOp, 0, 1, 1⟩,
       ⟨.Name, "c", .Int, .NoneOp, 0, 1, 7⟩,
       ⟨.Assign, "c", .Int, .NoneOp, 0, 1, 9⟩,
       ⟨.Literal, "0x_FF", .Int, .NoneOp, 0, 1, 11⟩,
       ⟨.Semi, "0x_FF", .Int, .NoneOp, 0, 1, 16⟩,
       ⟨.EOF, "0x_FF", .Int, .NoneOp, 0, 1, 17⟩]) := ⟨rfl, rfl⟩

/-- C4: the claim states that every fully matched nesting of `/* */`
scans without error, with `/**/` followed by a valid token as the
witness example.  The code violates this: `comment()` calls the
token-level `s.next()` and then skips one more rune unconditionally,
so in `/**/;` the closing `*` is consumed blindly and the scanner
reports "comment not terminated"; a depth-1 comment whose first
content rune is harmless (`/* */ ;`) and a depth-2 nesting do scan,
and a genuinely unterminated comment also reports the error. -/
theorem C4_empty_block_comment_rejected :
    Syn.tokenizeF 200 "/**/;" = some (.error ⟨1, 2, "comment not terminated"⟩) ∧
    Syn.tokenizeF 200 "/* */ ;" = some (.ok
      [⟨.Semi, "", .Int, .Mul, 5, 1, 7⟩,
       ⟨.EOF, "", .Int, .Mul, 5, 1, 8⟩]) ∧
    Syn.tokenizeF 200 "/* a /* b */ c */ ;" = some (.ok
      [⟨.Semi, "", .Int, .Mul, 5, 1, 19⟩,
       ⟨.EOF, "", .Int, .Mul, 5, 1, 20⟩]) ∧
    Syn.tokenizeF 200 "/* x" = some (.error ⟨1, 2, "comment not terminated"⟩) := by
  refine ⟨rfl, rfl, rfl, rfl⟩

set_option maxHeartbeats 4000000 in
/-- C6: parsing `const x : int32 = 42;` succeeds with no error and
yields a `File` whose `DeclList` is exactly one `ConstDecl` with
`NameList = [x]`, `Type = Name int32`, and
`Values = LiteralExpr "42" Int`.  Stated in stages (the token stream,
the parse of that stream, and the composed `Parse`) so that each stage
evaluates over literal data. -/
theorem C6_const_int32_decl :
    Syn.tokenizeF 64 "const x : int32 = 42;" = some (.ok Syn.constX42Toks) ∧
    Syn.fileF 64 (Syn.PState.fromToks Syn.constX42Toks) = some (.ok (Syn.constX42File,
      ⟨⟨.EOF, "42", .Int, .NoneOp, 0, 1, 22⟩, []⟩)) ∧
    Syn.ParseF 64 "const x : int32 = 42;" = some (.ok Syn.constX42File) := by
  have h1 : Syn.tokenizeF 64 "const x : int32 = 42;" = some (.ok Syn.constX42Toks) := rfl
  have h2 : Syn.fileF 64 (Syn.PState.fromToks Syn.constX42Toks) = some (.ok (Syn.constX42File,
      ⟨⟨.EOF, "42", .Int, .NoneOp, 0, 1, 22⟩, []⟩)) := rfl
  refine ⟨h1, h2, ?_⟩
  simp only [Syn.ParseF, h1, h2]

/-! ### Claim C7 (mixed named and unnamed parameters) -/

namespace Syn

/-- Helper for C7: `paramList`'s loop over a rendered schematic parameter
list collects the corresponding `Field` nodes, accumulates the named and
unnamed flags, and stops at the closing parenthesis. -/
theorem paramLoop_render :
    ∀ (fs : List SFieldT) (g : Nat) (acc : List Field) (named unnamed : Bool)
      (t0 : Tok) (rest : List Tok),
      paramLoopF (g + fs.length + 5) acc named unnamed
        (PState.advance ⟨t0, renderFields fs ++ rparenTok :: rest⟩) =
      some (.ok ((acc ++ fs.map fieldNode,
        named || anyNamed fs, unnamed || anyUnnamed fs),
        ⟨rparenTok, rest⟩)) := by
  intro fs
  induction fs with
  | nil =>
    intro g acc named unnamed t0 rest
    exact Eq.trans
      (show paramLoopF (g + ([] : List SFieldT).length + 5) acc named unnamed
          (PState.advance ⟨t0, renderFields [] ++ rparenTok :: rest⟩) =
        some (.ok ((acc, named, unnamed), (⟨rparenTok, rest⟩ : PState))) from rfl)
      (by simp [anyNamed, anyUnnamed])
  | cons f fs ih =>
    intro g acc named unnamed t0 rest
    obtain ⟨nmOpt, t⟩ := f
    cases nmOpt with
    | none =>
      exact Eq.trans
        (ih g (acc ++ [fieldNode (none, t)]) (named || false) (unnamed || !false)
          commaTok rest)
        (by simp [fieldNode, anyNamed, anyUnnamed, Bool.or_assoc])
    | some n =>
      exact Eq.trans
        (ih g (acc ++ [fieldNode (some n, t)]) (named || true) (unnamed || !true)
          commaTok rest)
        (by simp [fieldNode, anyNamed, anyUnnamed, Bool.or_assoc])

/-- Helper for C7: on a rendered schematic parameter list, `paramList`
errors with "got mixed named and unnamed parameters" at the opening
parenthesis exactly when the list mixes named and unnamed fields, and
otherwise succeeds with the rendered fields. -/
theorem paramList_render :
    ∀ (fs : List SFieldT) (g lpLine lpCol : Nat) (rest : List Tok),
      paramListF (g + fs.length + 6)
        ⟨lparenTok lpLine lpCol, renderFields fs ++ rparenTok :: rest⟩ =
      (if anyNamed fs && anyUnnamed fs then
        some (.error ⟨lpLine, lpCol, "got mixed named and unnamed parameters"⟩)
      else some (.ok (fs.map fieldNode, PState.advance ⟨rparenTok, rest⟩))) := by
  intro fs g lpLine lpCol rest
  cases fs with
  | nil => rfl
  | cons f fs =>
    have hstep : paramListF (g + (f :: fs).length + 6)
        ⟨lparenTok lpLine lpCol, renderFields (f :: fs) ++ rparenTok :: rest⟩ =
        pbind (paramLoopF (g + (f :: fs).length + 5) [] false false
          (PState.advance ⟨lparenTok lpLine lpCol, renderFields (f :: fs) ++ rparenTok :: rest⟩))
          (fun res p => ebind (p.want .Rparen) fun r2 =>
            if res.2.1 ∧ res.2.2 then
              some (.error ⟨lpLine, lpCol, "got mixed named and unnamed parameters"⟩)
            else some (.ok (res.1, r2.2))) := by
      obtain ⟨nmOpt, t⟩ := f
      cases nmOpt <;> rfl
    rw [hstep, paramLoop_render (f :: fs) g [] false false (lparenTok lpLine lpCol) rest]
    simp only [pbind, ebind, PState.want, Bool.false_or]
    rcases hN : anyNamed (f :: fs) <;> rcases hU : anyUnnamed (f :: fs) <;>
      simp [hN, hU, PState.pos, PState.advance, rparenTok]

end Syn

set_option maxHeartbeats 1000000 in
/-- C7: for every procedure parameter list containing both a named and an
unnamed field, the parser reports the error "got mixed named and unnamed
parameters" at the opening parenthesis, while a list whose fields are all
named or all unnamed is accepted (first conjunct, over every schematic
parameter list); concretely, parsing `var p : proc(int32, x: int32);`
bails out with exactly that error at the `(` in line 1, column 13
(remaining conjuncts). -/
theorem C7_mixed_params :
    (∀ (fs : List Syn.SFieldT) (g lpLine lpCol : Nat) (rest : List Syn.Tok),
      Syn.paramListF (g + fs.length + 6)
        ⟨Syn.lparenTok lpLine lpCol, Syn.renderFields fs ++ Syn.rparenTok :: rest⟩ =
      (if Syn.anyNamed fs && Syn.anyUnnamed fs then
        some (.error ⟨lpLine, lpCol, "got mixed named and unnamed parameters"⟩)
      else some (.ok (fs.map Syn.fieldNode, Syn.PState.advance ⟨Syn.rparenTok, rest⟩)))) ∧
    Syn.tokenizeF 64 "var p : proc(int32, x: int32);" = some (.ok Syn.mixedParamToks) ∧
    Syn.fileF 64 (Syn.PState.fromToks Syn.mixedParamToks) =
      some (.error ⟨1, 13, "got mixed named and unnamed parameters"⟩) ∧
    Syn.ParseF 64 "var p : proc(int32, x: int32);" =
      some (.error ⟨1, 13, "got mixed named and unnamed parameters"⟩) := by
  have h1 : Syn.tokenizeF 64 "var p : proc(int32, x: int32);" =
      some (.ok Syn.mixedParamToks) := rfl
  have h2 : Syn.fileF 64 (Syn.PState.fromToks Syn.mixedParamToks) =
      some (.error ⟨1, 13, "got mixed named and unnamed parameters"⟩) := rfl
  exact ⟨Syn.paramList_render, h1, h2, by simp only [Syn.ParseF, h1, h2]⟩

/-! ### Claims C2, C5 and C8 -/

/-- C2: the claim states that for all unsigned integer constant values
`v`, `w` the result of `v.Binary(Neq, w)` is the logical negation of
`v.Binary(Eql, w)`.  The code violates this: for the distinct uint
values 1 and 2 (as built by `MakeUint`, both 32-bit), `Neq` evaluates
to `Bool(false)` — the same as `Eql` — because the `Neq`/`uintValue`
arm of `uintValue.Binary` returns `v.x == w.x` without negating. -/
theorem C2_uint_neq_equals_eql_on_code :
    Types.uintValueBinary Types.unitFloatOps 1 32 .Neq (Types.Value.uint 2 32) =
      Types.MakeBool false ∧
    Types.uintValueBinary Types.unitFloatOps 1 32 .Eql (Types.Value.uint 2 32) =
      Types.MakeBool false ∧
    (Types.MakeUint 1 : Types.Value Unit) = .uint 1 32 ∧
    (Types.MakeUint 2 : Types.Value Unit) = .uint 2 32 := by
  refine ⟨?_, ?_, ?_, ?_⟩ <;> decide

/-- C5: the claim states that an operator that is not a supported unary
operator for the value's kind yields `Undefined`.  The code violates
this: the `switch` in `intValue.Unary` (and likewise `uintValue.Unary`,
`floatValue.Unary`) has no default branch, so an unsupported operator
such as `LNot` falls through and the method returns the value rebuilt
by `MakeInt`/`MakeUint` instead of `Undefined`.  Evaluated at
`MakeInt(5).Unary(LNot)` and `MakeUint(7).Unary(LNot)`. -/
theorem C5_unary_unsupported_not_undefined :
    Types.Value.Unary Types.unitFloatOps (Types.MakeInt 5) .LNot = .int 5 32 ∧
    Types.Value.Unary Types.unitFloatOps (Types.MakeInt 5) .LNot ≠ .undef ∧
    Types.Value.Unary Types.unitFloatOps (Types.MakeUint 7) .LNot = .uint 7 32 ∧
    Types.Value.Unary Types.unitFloatOps (Types.MakeUint 7) .LNot ≠ .undef := by
  refine ⟨?_, ?_, ?_, ?_⟩ <;> decide

/-- C8: `MakeInt(x)` returns a signed value with 32 bits iff
`-2^31 ≤ x ≤ 2^31-1` and otherwise 64 bits; `MakeUint(x)` returns an
unsigned value with 32 bits iff `x ≤ 2^32-1` and otherwise 64 bits;
`MakeFloat(x)` returns a float value with 32 bits iff converting `x` to
`float32` and back to `float64` yields exactly `x` (the round-trip
comparison `float64(float32(x)) == x`, written `fo.beq (fo.toF32 x) x`
over the abstract float operations), and otherwise 64 bits. -/
theorem C8_make_value_widths :
    (∀ (F : Type) (x : Int), -(2 ^ 63) ≤ x → x ≤ 2 ^ 63 - 1 →
      (((Types.MakeInt x : Types.Value F) = .int x 32 ↔ -(2 ^ 31) ≤ x ∧ x ≤ 2 ^ 31 - 1) ∧
        ((Types.MakeInt x : Types.Value F) = .int x 32 ∨
          (Types.MakeInt x : Types.Value F) = .int x 64))) ∧
    (∀ (F : Type) (x : Nat), x ≤ 2 ^ 64 - 1 →
      (((Types.MakeUint x : Types.Value F) = .uint x 32 ↔ x ≤ 2 ^ 32 - 1) ∧
        ((Types.MakeUint x : Types.Value F) = .uint x 32 ∨
          (Types.MakeUint x : Types.Value F) = .uint x 64))) ∧
    (∀ (F : Type) (fo : Types.FloatOps F) (x : F),
      (Types.MakeFloat fo x = .float x 32 ↔ fo.beq (fo.toF32 x) x = true) ∧
      (Types.MakeFloat fo x = .float x 32 ∨ Types.MakeFloat fo x = .float x 64)) := by
  refine ⟨?_, ?_, ?_⟩
  · intro F x _ _
    constructor
    · unfold Types.MakeInt
      split_ifs with h
      · constructor
        · intro he
          exact absurd he (by simp)
        · intro hb
          omega
      · constructor
        · intro _
          push_neg at h
          omega
        · intro _
          rfl
    · unfold Types.MakeInt
      split_ifs with h
      · right
        rfl
      · left
        rfl
  · intro F x _
    constructor
    · unfold Types.MakeUint
      split_ifs with h
      · constructor
        · intro he
          exact absurd he (by simp)
        · intro hb
          omega
      · constructor
        · intro _
          omega
        · intro _
          rfl
    · unfold Types.MakeUint
      split_ifs with h
      · right
        rfl
      · left
        rfl
  · intro F fo x
    constructor
    · unfold Types.MakeFloat
      split_ifs with h
      · constructor
        · intro _
          exact h
        · intro _
          rfl
      · constructor
        · intro he
          exact absurd he (by simp)
        · intro hb
          exact absurd hb (by simp [h])
    · unfold Types.MakeFloat
      split_ifs with h
      · left
        rfl
      · right
        rfl

/-- Witness for C8 at concrete inputs: `x = 3` is inside the `int64`
range and `MakeInt 3` is 32-bit; `x = 2^32` is inside the `uint64`
range and `MakeUint (2^32)` is 64-bit; the float part instantiated at
the trivial carrier, where the round-trip comparison holds. -/
theorem C8_make_value_widths_witness :
    (-(2 ^ 63) : Int) ≤ 3 ∧ (3 : Int) ≤ 2 ^ 63 - 1 ∧
      (Types.MakeInt 3 : Types.Value Unit) = .int 3 32 ∧
      ((2 ^ 32 : Nat) ≤ 2 ^ 64 - 1 ∧
        (Types.MakeUint (2 ^ 32) : Types.Value Unit) = .uint (2 ^ 32) 64) ∧
      Types.MakeFloat Types.unitFloatOps () = .float () 32 := by
  refine ⟨by norm_num, by norm_num, ?_, ⟨by norm_num, ?_⟩, ?_⟩
  · exact ((C8_make_value_widths.1 Unit 3 (by norm_num) (by norm_num)).1).mpr (by norm_num)
  · refine ((C8_make_value_widths.2.1 Unit (2 ^ 32) (by norm_num)).2).resolve_left ?_
    intro h
    have hb := ((C8_make_value_widths.2.1 Unit (2 ^ 32) (by norm_num)).1).mp h
    norm_num at hb
  · exact ((C8_make_value_widths.2.2 Unit Types.unitFloatOps ()).1).mpr (by decide)

end Cobalt
